import Mathlib

/-!
# Shopping cart: totals reconciliation and item merging

A shallow embedding of `src/models/cart.model.js`, of the cart handlers of
`src/controllers/cart.controller.js` with the request validation of
`src/routes/cart.routes.js`, and of the category tree and the slug of
`src/controllers/category.controller.js`.

Modelling conventions.

* A JavaScript `Number` is an exact rational (`ℚ`); rounding of binary
  floating point is not modelled.
* Identifiers (`ObjectId`s rendered by `toString()`) are strings.
* A model method runs on a `World`: the in-memory document `this` together
  with what the database holds for it.  A method returns the outcome of its
  promise (`Except CartError Cart`) and the world it leaves behind, so a
  `throw` keeps whatever mutation of `this` happened before it.
* `save()` runs the validators declared in the schema before it writes; the
  only one that a well-typed `Cart` can violate is `min: 1` on an item's
  `quantity` (`cartSchema.items.quantity`).  A rejected `save()` writes
  nothing and leaves `this` as mutated.  The database is taken to be
  available: `save()` fails through validation only.
* `new Date()` and the `_id` generated for a pushed sub-document are supplied
  by the caller (`now`, `newId`).
* `Product.findById` is the catalog, a function `String → Option Product`.
* The `carts` collection is a list of carts; a handler returns its response
  and the collection it leaves behind.
* The tree builder `categoryTree` works on a populated list; `getCategories`
  is `populate` followed by the builder, on the collection listed in the
  order that the query's `sort` gives.  A JavaScript string is the list of its
  UTF-16 code units where single characters matter (the slug).
-/

set_option autoImplicit false

namespace CartModel

/-! ## Data model (`cartSchema`, `productSchema`) -/

/-- The `variant` of a line item: `{ name: String, option: String }`. -/
structure Variant where
  name : String
  option : String
deriving DecidableEq, Repr

/-- One element of `cartSchema.items`. -/
structure Item where
  _id : String
  product : String
  variant : Option Variant
  quantity : ℚ
  price : ℚ
deriving DecidableEq, Repr

/-- The field `discount: { code: String, amount: Number }`; an absent
`amount` is `none`. -/
structure Discount where
  code : Option String
  amount : Option ℚ
deriving DecidableEq, Repr

/-- The field `shipping: { method: String, cost: Number }`. -/
structure Shipping where
  method : Option String
  cost : ℚ
deriving DecidableEq, Repr

/-- A document of `cartSchema`. -/
structure Cart where
  user : String
  items : List Item
  total : ℚ
  discount : Discount
  shipping : Shipping
  tax : ℚ
  grandTotal : ℚ
  lastUpdated : Nat
deriving DecidableEq, Repr

/-- The fields of a `Product` document that the cart reads. -/
structure Product where
  price : ℚ
  stock : ℚ
deriving DecidableEq, Repr

/-- The errors a cart method can reject with. -/
inductive CartError where
  | productNotFound
  | insufficientStock
  | itemNotFound
  | validationFailed
deriving DecidableEq, Repr

/-- The `message` of the thrown `Error`. -/
def CartError.message : CartError → String
  | .productNotFound => "Product not found"
  | .insufficientStock => "Insufficient stock"
  | .itemNotFound => "Item not found in cart"
  | .validationFailed => "Cart validation failed"

/-- The in-memory document `this` and the database's copy of it (`none`
while the document has never been saved). -/
structure World where
  doc : Cart
  stored : Option Cart
deriving DecidableEq, Repr

/-- What a method call produces: the settled promise and the world after
it. -/
abbrev Outcome := Except CartError Cart × World

/-! ## `save` and `calculateTotals` -/

/-- The validator declared by `quantity: { type: Number, required: true,
min: 1 }` in `cartSchema.items`, run on every element of `items`. -/
def validate (c : Cart) : Bool :=
  c.items.all (fun item => decide (1 ≤ item.quantity))

/-- Mongoose `save()`: validate, then write the whole document. -/
def save (w : World) : Outcome :=
  if validate w.doc then
    (.ok w.doc, { w with stored := some w.doc })
  else
    (.error .validationFailed, w)

/-- The `reduce` of `calculateTotals`: `sum + item.price * item.quantity`
from `0`, left to right. -/
def itemsTotal (items : List Item) : ℚ :=
  items.foldl (fun sum item => sum + item.price * item.quantity) 0

/-- The three assignments of `calculateTotals`, before `save()`. -/
def recompute (now : Nat) (c : Cart) : Cart :=
  let total := itemsTotal c.items
  { c with
    total := total
    grandTotal := total + c.shipping.cost + c.tax - (c.discount.amount.getD 0)
    lastUpdated := now }

/-- `cartSchema.methods.calculateTotals`. -/
def calculateTotals (now : Nat) (w : World) : Outcome :=
  save { w with doc := recompute now w.doc }

/-! ## `addItem` -/

/-- The predicate passed to `this.items.find` in `addItem`. -/
def addItemMatch (productId : String) (variant : Option Variant) (item : Item) : Bool :=
  item.product == productId &&
    (variant.isNone ||
      (match item.variant, variant with
        | some iv, some v => iv.name == v.name && iv.option == v.option
        | _, _ => false))

/-- Assignment through the reference returned by `Array.prototype.find`:
the first element satisfying `p` is replaced by its image under `f`. -/
def modifyFirst (p : Item → Bool) (f : Item → Item) : List Item → List Item
  | [] => []
  | x :: xs => if p x then f x :: xs else x :: modifyFirst p f xs

/-- `cartSchema.methods.addItem`. -/
def addItem (catalog : String → Option Product) (productId : String) (quantity : ℚ)
    (variant : Option Variant) (newId : String) (now : Nat) (w : World) : Outcome :=
  match catalog productId with
  | none => (.error .productNotFound, w)
  | some product =>
    if product.stock < quantity then
      (.error .insufficientStock, w)
    else
      let p := addItemMatch productId variant
      let items :=
        match w.doc.items.find? p with
        | some _ =>
          modifyFirst p
            (fun item => { item with quantity := item.quantity + quantity, price := product.price })
            w.doc.items
        | none =>
          w.doc.items ++
            [{ _id := newId, product := productId, variant := variant,
               quantity := quantity, price := product.price }]
      calculateTotals now { w with doc := { w.doc with items := items } }

/-! ## `removeItem`, `updateQuantity`, `clearCart` -/

/-- `cartSchema.methods.removeItem`. -/
def removeItem (itemId : String) (now : Nat) (w : World) : Outcome :=
  calculateTotals now
    { w with doc := { w.doc with items := w.doc.items.filter (fun item => item._id != itemId) } }

/-- `cartSchema.methods.updateQuantity`. -/
def updateQuantity (catalog : String → Option Product) (itemId : String) (quantity : ℚ)
    (now : Nat) (w : World) : Outcome :=
  match w.doc.items.find? (fun item => item._id == itemId) with
  | none => (.error .itemNotFound, w)
  | some item =>
    match catalog item.product with
    | none => (.error .productNotFound, w)
    | some product =>
      if product.stock < quantity then
        (.error .insufficientStock, w)
      else
        calculateTotals now
          { w with doc := { w.doc with
              items := modifyFirst (fun item => item._id == itemId)
                (fun item => { item with quantity := quantity }) w.doc.items } }

/-- `cartSchema.methods.clearCart`. -/
def clearCart (now : Nat) (w : World) : Outcome :=
  save { w with doc := { w.doc with
    items := []
    total := 0
    discount := { code := none, amount := some 0 }
    shipping := { method := none, cost := 0 }
    tax := 0
    grandTotal := 0
    lastUpdated := now } }

/-! ## Handlers that assign cart fields (`cart.controller.js`) -/

/-- The body of `exports.applyDiscount` once the cart is loaded:
`cart.discount = { code, amount: cart.total * 0.1 }`, then
`calculateTotals()`.  The double product `cart.total * 0.1` is rendered by the
exact product with one tenth; the two differ by the rounding of the double
(total 3 gives 0.30000000000000004 in the code), so what is derived from this
definition is what does not depend on that rounding: which fields are written,
the agreement between two runs, and the values at totals such as 20 where the
double product is exact. -/
def applyDiscount (code : Option String) (now : Nat) (w : World) : Outcome :=
  calculateTotals now
    { w with doc := { w.doc with
        discount := { code := code, amount := some (w.doc.total * (1 / 10)) } } }

/-- The body of `exports.updateShipping` once the cart is loaded:
`cart.shipping = { method, cost: Number(cost) }`, then `calculateTotals()`. -/
def updateShipping (method : Option String) (cost : ℚ) (now : Nat) (w : World) : Outcome :=
  calculateTotals now
    { w with doc := { w.doc with shipping := { method := method, cost := cost } } }

/-! ## The cart collection and `getCart` (`cart.controller.js`) -/

/-- The `carts` collection, in insertion order. -/
abbrev Store := List Cart

/-- `Cart.findOne({ user })`: the first stored cart of the user. -/
def findOne (user : String) (store : Store) : Option Cart :=
  store.find? (fun cart => cart.user == user)

/-- `Cart.create({ user })`: a document with the schema defaults (`total`,
`discount.amount`, `shipping.cost`, `tax`, `grandTotal` at 0, `lastUpdated` at
the current time, no items), saved as a new element of the collection. -/
def create (user : String) (now : Nat) (store : Store) : Cart × Store :=
  let cart : Cart :=
    { user := user, items := [], total := 0, discount := { code := none, amount := some 0 },
      shipping := { method := none, cost := 0 }, tax := 0, grandTotal := 0, lastUpdated := now }
  (cart, store ++ [cart])

/-- `exports.getCart`: the cart sent in the response and the collection
afterwards.  The `populate` of `items.product` only decorates the response and
is not modelled. -/
def getCart (user : String) (now : Nat) (store : Store) : Cart × Store :=
  match findOne user store with
  | some cart => (cart, store)
  | none => create user now store

/-! ## Request validation and the handlers of the cart routes
(`cart.routes.js`, `cart.controller.js`) -/

/-- The chain `body('quantity').isInt({ min: 1 })` on a JSON number.  The
validator reads the number's string form, which is a plain integer numeral
exactly for the integers below 10^21; the number must be at least 1. -/
def quantityValid (quantity : ℚ) : Bool :=
  quantity.isInt && decide (1 ≤ quantity) && decide (quantity < 10 ^ 21)

/-- A hexadecimal digit, in either case. -/
def isHexDigit (c : Char) : Bool :=
  c.isDigit || ('a' ≤ c && c ≤ 'f') || ('A' ≤ c && c ≤ 'F')

/-- The test `isHexadecimal` of the validator, `/^(0x|0h)?[0-9A-F]+$/i`: one
or more hexadecimal digits, after an optional prefix `0x` or `0h`. -/
def isHexadecimal : List Char → Bool
  | '0' :: c :: d :: rest =>
    ((c == 'x' || c == 'X' || c == 'h' || c == 'H') && (d :: rest).all isHexDigit) ||
      ('0' :: c :: d :: rest).all isHexDigit
  | [] => false
  | digits => digits.all isHexDigit

/-- The chain `body('productId').isMongoId()`: a hexadecimal string of length
24. -/
def isMongoId (productId : String) : Bool :=
  isHexadecimal productId.toList && productId.length == 24

/-- The chains of `shippingValidation`: `body('method').notEmpty()` and
`body('cost').isFloat({ min: 0 })` on a JSON number. -/
def shippingValid (method : String) (cost : ℚ) : Bool :=
  method != "" && decide (0 ≤ cost)

/-- What a handler answers: the HTTP status and the cart of the body, if the
body carries one. -/
structure Response where
  status : Nat
  cart : Option Cart
deriving DecidableEq, Repr

/-- The document `new Cart({ user })`: schema defaults, not saved yet. -/
def newCart (user : String) (now : Nat) : Cart :=
  { user := user, items := [], total := 0, discount := { code := none, amount := some 0 },
    shipping := { method := none, cost := 0 }, tax := 0, grandTotal := 0, lastUpdated := now }

/-- The first cart of `user` in the collection replaced by `cart`. -/
def replaceCart (user : String) (cart : Cart) : Store → Store
  | [] => []
  | c :: rest => if c.user == user then cart :: rest else c :: replaceCart user cart rest

/-- The collection after a method call on the user's document: what the
document's `save()` wrote, if anything, replaces the user's stored cart or is
inserted when the user had none. -/
def writeBack (user : String) (written : Option Cart) (store : Store) : Store :=
  match written with
  | none => store
  | some cart =>
    match findOne user store with
    | some _ => replaceCart user cart store
    | none => store ++ [cart]

/-- `exports.addToCart` behind `addToCartValidation`: the handler answers 400
when `validationResult(req)` holds an error, else loads or makes the cart, calls
`addItem` and answers 200, or 500 when the call throws. -/
def addToCartHandler (catalog : String → Option Product) (user productId : String)
    (quantity : ℚ) (variant : Option Variant) (newId : String) (now : Nat) (store : Store) :
    Response × Store :=
  if !(isMongoId productId && quantityValid quantity) then
    ({ status := 400, cart := none }, store)
  else
    let w : World :=
      match findOne user store with
      | some cart => { doc := cart, stored := some cart }
      | none => { doc := newCart user now, stored := none }
    let r := addItem catalog productId quantity variant newId now w
    match r.1 with
    | .ok _ => ({ status := 200, cart := some r.2.doc }, writeBack user r.2.stored store)
    | .error _ => ({ status := 500, cart := none }, writeBack user r.2.stored store)

/-- `exports.updateQuantity` behind `updateQuantityValidation`: the handler
never reads `validationResult(req)`; it answers 404 without a cart, else calls
`updateQuantity` and answers 200, or 500 when the call throws. -/
def updateQuantityHandler (catalog : String → Option Product) (user itemId : String)
    (quantity : ℚ) (now : Nat) (store : Store) : Response × Store :=
  match findOne user store with
  | none => ({ status := 404, cart := none }, store)
  | some cart =>
    let r := updateQuantity catalog itemId quantity now { doc := cart, stored := some cart }
    match r.1 with
    | .ok _ => ({ status := 200, cart := some r.2.doc }, writeBack user r.2.stored store)
    | .error _ => ({ status := 500, cart := none }, writeBack user r.2.stored store)

/-- `exports.updateShipping` behind `shippingValidation`: the handler never
reads `validationResult(req)`; it answers 404 without a cart, else assigns
`cart.shipping`, recomputes and answers 200, or 500 when the save throws. -/
def updateShippingHandler (user method : String) (cost : ℚ) (now : Nat) (store : Store) :
    Response × Store :=
  match findOne user store with
  | none => ({ status := 404, cart := none }, store)
  | some cart =>
    let r := updateShipping (some method) cost now { doc := cart, stored := some cart }
    match r.1 with
    | .ok _ => ({ status := 200, cart := some r.2.doc }, writeBack user r.2.stored store)
    | .error _ => ({ status := 500, cart := none }, writeBack user r.2.stored store)

/-! ## Specification vocabulary -/

/-- The value of one line: `item.price * item.quantity`. -/
def lineValue (item : Item) : ℚ := item.price * item.quantity

/-- The subtotal the items call for: the sum of the line values. -/
def subtotalOf (items : List Item) : ℚ := (items.map lineValue).sum

/-- The totals of a cart agree with its items, shipping, tax and discount
(a missing discount amount counting as `0`). -/
def TotalsConsistent (c : Cart) : Prop :=
  c.total = subtotalOf c.items ∧
    c.grandTotal = c.total + c.shipping.cost + c.tax - c.discount.amount.getD 0

instance (c : Cart) : Decidable (TotalsConsistent c) := by
  unfold TotalsConsistent; exact inferInstance

/-- The six operations that change a cart. -/
inductive CartOp where
  | addItem (productId : String) (quantity : ℚ) (variant : Option Variant) (newId : String)
  | updateQuantity (itemId : String) (quantity : ℚ)
  | removeItem (itemId : String)
  | clearCart
  | applyDiscount (code : Option String)
  | updateShipping (method : Option String) (cost : ℚ)

/-- Running an operation against a catalog, at time `now`. -/
def CartOp.run (catalog : String → Option Product) (now : Nat) (w : World) : CartOp → Outcome
  | .addItem productId quantity variant newId =>
      CartModel.addItem catalog productId quantity variant newId now w
  | .updateQuantity itemId quantity => CartModel.updateQuantity catalog itemId quantity now w
  | .removeItem itemId => CartModel.removeItem itemId now w
  | .clearCart => CartModel.clearCart now w
  | .applyDiscount code => CartModel.applyDiscount code now w
  | .updateShipping method cost => CartModel.updateShipping method cost now w

/-- An empty cart of `user`, every derived field at its schema default. -/
def emptyCart (user : String) : Cart :=
  { user := user, items := [], total := 0, discount := { code := none, amount := some 0 },
    shipping := { method := none, cost := 0 }, tax := 0, grandTotal := 0, lastUpdated := 0 }

/-- What the predicate of `addItem` accepts: the item is for the product and,
when a variant is requested, carries exactly that variant. -/
def Matches (productId : String) (variant : Option Variant) (item : Item) : Prop :=
  item.product = productId ∧ (variant = none ∨ item.variant = variant)

instance (productId : String) (variant : Option Variant) (item : Item) :
    Decidable (Matches productId variant item) := by
  unfold Matches; exact inferInstance

/-- The line item that a merge of `quantity` units at `price` turns `item`
into. -/
def merged (quantity price : ℚ) (item : Item) : Item :=
  { item with quantity := item.quantity + quantity, price := price }

/-- The line item that `addItem` pushes when nothing matches. -/
def pushed (newId productId : String) (variant : Option Variant) (quantity price : ℚ) : Item :=
  { _id := newId, product := productId, variant := variant, quantity := quantity, price := price }

/-! ## Sample data -/

/-- A cart holding the two lines of the totals example: price 10 times 2 and
price 5 times 1, with shipping cost 3, tax 1 and discount amount 2. -/
def totalsExample : Cart :=
  { user := "u"
    items := [{ _id := "i1", product := "a", variant := none, quantity := 2, price := 10 },
              { _id := "i2", product := "b", variant := none, quantity := 1, price := 5 }]
    total := 0
    discount := { code := some "X", amount := some 2 }
    shipping := { method := some "post", cost := 3 }
    tax := 1
    grandTotal := 0
    lastUpdated := 0 }

/-- A catalog with one product `"p"`, price 10 and stock 5. -/
def demoCatalog : String → Option Product :=
  fun productId => if productId = "p" then some { price := 10, stock := 5 } else none

/-- The same product after a price change: price 12, stock 5. -/
def demoCatalogLater : String → Option Product :=
  fun productId => if productId = "p" then some { price := 12, stock := 5 } else none

/-- A world whose document is a fresh cart that the store does not hold
yet. -/
def freshWorld : World := { doc := emptyCart "u", stored := none }

/-- The variant (size, M). -/
def sizeM : Variant := { name := "size", option := "M" }

/-- The variant (size, L). -/
def sizeL : Variant := { name := "size", option := "L" }

/-- A line of two units of product `"p"` in size M, bought at price 10. -/
def lineM : Item :=
  { _id := "i1", product := "p", variant := some sizeM, quantity := 2, price := 10 }

/-- A stored cart whose only line is `lineM`. -/
def oneLineCart : Cart :=
  { emptyCart "u" with items := [lineM], total := 20, grandTotal := 20 }

/-- The world in which `oneLineCart` has just been loaded from the store. -/
def oneLineWorld : World := { doc := oneLineCart, stored := some oneLineCart }

end CartModel

namespace CategoryTree

/-! ## Categories (`categorySchema`) and the tree of `getCategories` -/

/-- A populated `parent`: `populate('parent', 'name slug')` keeps `_id`,
`name` and `slug` of the parent document. -/
structure ParentRef where
  _id : String
  name : String
  slug : String
deriving DecidableEq, Repr

/-- A document of `categorySchema` as `getCategories` reads it, `parent`
populated (`none` for `null`).  The fields `image`, `attributes`, `seo` and the
timestamps ride along unread and are left out. -/
structure Category where
  _id : String
  name : String
  slug : String
  description : Option String
  parent : Option ParentRef
  isActive : Bool
  order : ℚ
deriving DecidableEq, Repr

/-- An element of `categoryTree`: `{ ...category.toObject(), subcategories }`. -/
structure CategoryNode where
  category : Category
  subcategories : List Category
deriving DecidableEq, Repr

/-- The `reduce` of `getCategories`: every category without parent is pushed,
with no subcategories yet. -/
def rootNodes (categories : List Category) : List CategoryNode :=
  categories.foldl
    (fun tree category =>
      if category.parent.isNone then tree ++ [{ category := category, subcategories := [] }]
      else tree)
    []

/-- The lookup `categoryTree.find(cat => cat._id.toString() === parentId)`
followed by `parent.subcategories.push(category)`: the first node with that id
gets the category appended; without such a node nothing happens. -/
def pushChild (parentId : String) (category : Category) : List CategoryNode → List CategoryNode
  | [] => []
  | node :: rest =>
    if node.category._id == parentId then
      { node with subcategories := node.subcategories ++ [category] } :: rest
    else node :: pushChild parentId category rest

/-- The `forEach` of `getCategories`, run over `categories` on `tree`. -/
def attachChildren (categories : List Category) (tree : List CategoryNode) : List CategoryNode :=
  categories.foldl
    (fun tree category =>
      match category.parent with
      | none => tree
      | some parent => pushChild parent._id category tree)
    tree

/-- The `categoryTree` that `getCategories` responds with, from the sorted,
populated result of `Category.find()`. -/
def categoryTree (categories : List Category) : List CategoryNode :=
  attachChildren categories (rootNodes categories)

/-! ## The query of `getCategories`: `find`, `populate`, and the response -/

/-- A document of `categorySchema` as stored: `parent` is an `ObjectId` or
`null`. -/
structure RawCategory where
  _id : String
  name : String
  slug : String
  description : Option String
  parent : Option String
  isActive : Bool
  order : ℚ
deriving DecidableEq, Repr

/-- `populate('parent', 'name slug')` on one document: the parent id is
replaced by `_id`, `name` and `slug` of the category with that id, and by
`null` when the collection holds no category with that id. -/
def populateParent (collection : List RawCategory) (raw : RawCategory) : Category :=
  { _id := raw._id, name := raw.name, slug := raw.slug, description := raw.description,
    parent :=
      match raw.parent with
      | none => none
      | some parentId =>
        (collection.find? (fun c => c._id == parentId)).map
          (fun p => { _id := p._id, name := p.name, slug := p.slug }),
    isActive := raw.isActive, order := raw.order }

/-- `Category.find().populate('parent', 'name slug')` on the whole collection. -/
def populate (collection : List RawCategory) : List Category :=
  collection.map (populateParent collection)

/-- The `categories` of the response of `exports.getCategories`, from the
collection listed in the order that `sort('order name')` gives it. -/
def getCategories (collection : List RawCategory) : List CategoryNode :=
  categoryTree (populate collection)

/-! ## Slugs (`createCategory`, `updateCategory`) -/

/-- `String.prototype.toLowerCase` on one UTF-16 code unit.  The ASCII capitals
go to their small letters; KELVIN SIGN (U+212A) goes to the ASCII letter k and
LATIN CAPITAL LETTER I WITH DOT ABOVE (U+0130) to the letter i followed by
COMBINING DOT ABOVE (U+0307).  Every other unit is rendered by itself: where
the built-in changes it, both it and its image lie outside ASCII, which is all
the replacement that follows can tell. -/
def toLowerCaseUnit (u : Nat) : List Nat :=
  if 65 ≤ u ∧ u ≤ 90 then [u + 32]
  else if u = 0x212A then [107]
  else if u = 0x130 then [105, 0x307]
  else [u]

/-- `name.toLowerCase()` on a string given by its UTF-16 code units. -/
def toLowerCase (name : List Nat) : List Nat :=
  name.flatMap toLowerCaseUnit

/-- The class `[a-zA-Z0-9]` of the regular expression. -/
def isAlnum (u : Nat) : Bool :=
  (decide (97 ≤ u) && decide (u ≤ 122)) || (decide (65 ≤ u) && decide (u ≤ 90)) ||
    (decide (48 ≤ u) && decide (u ≤ 57))

/-- The slug `name.toLowerCase().replace(/[^a-zA-Z0-9]/g, '-')`; 45 is the
hyphen. -/
def slug (name : List Nat) : List Nat :=
  (toLowerCase name).map (fun u => if isAlnum u then u else 45)

/-- The code units of a string whose characters all lie in the Basic
Multilingual Plane. -/
def units (s : String) : List Nat := s.toList.map Char.toNat

/-! ## Specification vocabulary -/

/-- The categories of the list whose parent id is `parentId`, in list order. -/
def childrenOf (parentId : String) (categories : List Category) : List Category :=
  categories.filter (fun category => category.parent.map (fun parent => parent._id) = some parentId)

/-- Appending `category` to the subcategories of every node with id `parentId`. -/
def pushAll (parentId : String) (category : Category) (node : CategoryNode) : CategoryNode :=
  if node.category._id = parentId then
    { node with subcategories := node.subcategories ++ [category] }
  else node

/-- The depth-1 tree the specification describes: the parentless categories in
list order, each with its children in list order. -/
def depthOneTree (categories : List Category) : List CategoryNode :=
  (categories.filter (fun category => category.parent = none)).map
    (fun root => { category := root, subcategories := childrenOf root._id categories })

/-! ## Sample data -/

/-- A category named `name` with id `id` and parent id `parent`. -/
def sampleCategory (id name : String) (parent : Option String) : Category :=
  { _id := id, name := name, slug := name.toLower, description := none,
    parent := parent.map (fun p => { _id := p, name := "", slug := "" }),
    isActive := true, order := 0 }

/-- Roots A (id 1) and B (id 2), children C of 1, D of 2 and E of 3. -/
def sampleCategories : List Category :=
  [sampleCategory "1" "A" none, sampleCategory "2" "B" none, sampleCategory "3c" "C" (some "1"),
   sampleCategory "4d" "D" (some "2"), sampleCategory "5e" "E" (some "3")]

/-- A stored category named `name` with id `id` and parent id `parent`. -/
def rawCategory (id name : String) (parent : Option String) : RawCategory :=
  { _id := id, name := name, slug := name.toLower, description := none, parent := parent,
    isActive := true, order := 0 }

/-- A collection with roots A (id 1) and B (id 2), children C of 1 and D of 2,
and E whose parent id 3 is the id of no category. -/
def danglingCollection : List RawCategory :=
  [rawCategory "1" "A" none, rawCategory "2" "B" none, rawCategory "3c" "C" (some "1"),
   rawCategory "4d" "D" (some "2"), rawCategory "5e" "E" (some "3")]

/-- A collection of three levels: A without parent, C a child of A, G a child
of C. -/
def threeLevelCollection : List RawCategory :=
  [rawCategory "1" "A" none, rawCategory "2" "C" (some "1"), rawCategory "3" "G" (some "2")]

end CategoryTree

namespace CartModel

/-! ## Lemmas on `save` and `calculateTotals` -/

theorem foldl_add_eq (f : Item → ℚ) (items : List Item) (a : ℚ) :
    items.foldl (fun sum item => sum + f item) a = a + (items.map f).sum := by
  induction items generalizing a with
  | nil => simp
  | cons x xs ih => simp [ih, add_assoc]

theorem itemsTotal_eq_subtotalOf (items : List Item) : itemsTotal items = subtotalOf items := by
  have h := foldl_add_eq lineValue items 0
  simpa [itemsTotal, subtotalOf, lineValue] using h

theorem recompute_consistent (now : Nat) (c : Cart) : TotalsConsistent (recompute now c) := by
  simp [TotalsConsistent, recompute, itemsTotal_eq_subtotalOf]

theorem save_doc (w : World) : (save w).2.doc = w.doc := by
  unfold save; split <;> rfl

theorem save_ok (w : World) (c : Cart) (h : (save w).1 = .ok c) :
    c = w.doc ∧ (save w).2 = { w with stored := some w.doc } := by
  by_cases hv : validate w.doc = true
  · simp only [save, hv, if_true, Except.ok.injEq] at h ⊢
    exact ⟨h.symm, trivial⟩
  · simp [save, hv] at h

theorem save_of_valid (w : World) (h : validate w.doc = true) :
    save w = (.ok w.doc, { w with stored := some w.doc }) := by
  simp [save, h]

theorem save_of_invalid (w : World) (h : validate w.doc = false) :
    save w = (.error .validationFailed, w) := by
  simp [save, h]

theorem calculateTotals_doc (now : Nat) (w : World) :
    (calculateTotals now w).2.doc = recompute now w.doc := by
  simp [calculateTotals, save_doc]

theorem calculateTotals_ok (now : Nat) (w : World) (c : Cart)
    (h : (calculateTotals now w).1 = .ok c) :
    c = recompute now w.doc ∧
      (calculateTotals now w).2 = { doc := recompute now w.doc, stored := some (recompute now w.doc) } := by
  have := save_ok _ c h
  simpa [calculateTotals] using this

theorem validate_recompute (now : Nat) (c : Cart) : validate (recompute now c) = validate c := rfl

theorem calculateTotals_result (now : Nat) (w : World) :
    (calculateTotals now w).1 =
      if validate w.doc then Except.ok (recompute now w.doc)
      else Except.error CartError.validationFailed := by
  by_cases hv : validate w.doc = true
  · simp [calculateTotals, save, validate_recompute, hv]
  · simp [calculateTotals, save, validate_recompute, hv]

theorem calculateTotals_ok_consistent (now : Nat) (w : World) (c : Cart)
    (h : (calculateTotals now w).1 = .ok c) :
    TotalsConsistent c ∧ (calculateTotals now w).2.doc = c ∧
      (calculateTotals now w).2.stored = some c := by
  obtain ⟨hc, hw⟩ := calculateTotals_ok now w c h
  subst hc
  rw [hw]
  exact ⟨recompute_consistent now w.doc, rfl, rfl⟩

/-! ## Lemmas on `addItem` -/

theorem addItemMatch_iff (productId : String) (variant : Option Variant) (item : Item) :
    addItemMatch productId variant item = true ↔ Matches productId variant item := by
  obtain ⟨id, prod, iv, q, pr⟩ := item
  cases variant with
  | none => simp [addItemMatch, Matches]
  | some v =>
    cases iv with
    | none => simp [addItemMatch, Matches]
    | some u =>
      obtain ⟨n1, o1⟩ := u
      obtain ⟨n2, o2⟩ := v
      simp [addItemMatch, Matches]

theorem addItemMatch_eq_false_iff (productId : String) (variant : Option Variant) (item : Item) :
    addItemMatch productId variant item = false ↔ ¬ Matches productId variant item := by
  rw [← addItemMatch_iff]; simp

theorem find?_first (p : Item → Bool) (pre post : List Item) (it : Item)
    (hpre : ∀ x ∈ pre, p x = false) (hit : p it = true) :
    (pre ++ it :: post).find? p = some it := by
  induction pre with
  | nil => simp [List.find?, hit]
  | cons x xs ih =>
    have hx : p x = false := hpre x (by simp)
    simp only [List.cons_append, List.find?, hx]
    exact ih (fun y hy => hpre y (by simp [hy]))

theorem modifyFirst_first (p : Item → Bool) (f : Item → Item) (pre post : List Item) (it : Item)
    (hpre : ∀ x ∈ pre, p x = false) (hit : p it = true) :
    modifyFirst p f (pre ++ it :: post) = pre ++ f it :: post := by
  induction pre with
  | nil => simp [modifyFirst, hit]
  | cons x xs ih =>
    have hx : p x = false := hpre x (by simp)
    simp only [List.cons_append, modifyFirst, hx]
    simp [ih (fun y hy => hpre y (by simp [hy]))]

theorem modifyFirst_length (p : Item → Bool) (f : Item → Item) (l : List Item) :
    (modifyFirst p f l).length = l.length := by
  induction l with
  | nil => rfl
  | cons x xs ih => by_cases hx : p x = true <;> simp [modifyFirst, hx, ih]

theorem modifyFirst_getElem? (p : Item → Bool) (f : Item → Item) (l : List Item) (i : Nat)
    (it : Item) (h : l[i]? = some it) (hp : p it = false) :
    (modifyFirst p f l)[i]? = some it := by
  induction l generalizing i with
  | nil => simp at h
  | cons x xs ih =>
    cases i with
    | zero =>
      simp only [List.getElem?_cons_zero, Option.some.injEq] at h
      subst h
      simp [modifyFirst, hp]
    | succ j =>
      simp only [List.getElem?_cons_succ] at h
      by_cases hx : p x = true
      · simp [modifyFirst, hx, h]
      · simp [modifyFirst, hx, ih j h]

theorem find?_none_of_forall (p : Item → Bool) (l : List Item) (h : ∀ x ∈ l, p x = false) :
    l.find? p = none := by
  simp only [List.find?_eq_none]
  intro x hx
  simp [h x hx]

theorem addItem_merge_run (catalog : String → Option Product) (productId : String)
    (quantity : ℚ) (variant : Option Variant) (newId : String) (now : Nat) (w : World)
    (product : Product) (pre post : List Item) (it : Item)
    (hcat : catalog productId = some product) (hstock : ¬ product.stock < quantity)
    (hitems : w.doc.items = pre ++ it :: post)
    (hpre : ∀ x ∈ pre, ¬ Matches productId variant x) (hit : Matches productId variant it) :
    addItem catalog productId quantity variant newId now w =
      calculateTotals now
        { w with doc := { w.doc with items := pre ++ merged quantity product.price it :: post } } := by
  have hpre2 : ∀ x ∈ pre, addItemMatch productId variant x = false :=
    fun x hx => (addItemMatch_eq_false_iff _ _ _).2 (hpre x hx)
  have hit2 : addItemMatch productId variant it = true := (addItemMatch_iff _ _ _).2 hit
  simp only [addItem, hcat, hstock, if_false, hitems, find?_first _ pre post it hpre2 hit2,
    modifyFirst_first _ _ pre post it hpre2 hit2, merged]

theorem addItem_push_run (catalog : String → Option Product) (productId : String)
    (quantity : ℚ) (variant : Option Variant) (newId : String) (now : Nat) (w : World)
    (product : Product)
    (hcat : catalog productId = some product) (hstock : ¬ product.stock < quantity)
    (hno : ∀ x ∈ w.doc.items, ¬ Matches productId variant x) :
    addItem catalog productId quantity variant newId now w =
      calculateTotals now
        { w with doc := { w.doc with
            items := w.doc.items ++ [pushed newId productId variant quantity product.price] } } := by
  have hno2 : ∀ x ∈ w.doc.items, addItemMatch productId variant x = false :=
    fun x hx => (addItemMatch_eq_false_iff _ _ _).2 (hno x hx)
  simp only [addItem, hcat, hstock, if_false, find?_none_of_forall _ _ hno2, pushed]

theorem calculateTotals_of_valid (now : Nat) (w : World)
    (h : ∀ x ∈ w.doc.items, 1 ≤ x.quantity) :
    calculateTotals now w =
      (.ok (recompute now w.doc),
        { doc := recompute now w.doc, stored := some (recompute now w.doc) }) := by
  have hv : validate (recompute now w.doc) = true := by
    rw [validate_recompute]
    simpa [validate] using h
  simp [calculateTotals, save, hv]

/-! ## Totals -/

/-- C1. Totals invariant: whenever one of `addItem`, `updateQuantity`,
`removeItem`, `clearCart`, `applyDiscount`, `updateShipping` succeeds on a
cart, the cart it returns (which is both the document in memory and the
document written to the store) has `total` equal to the sum of
`price * quantity` over its items and `grandTotal` equal to
`total + shipping.cost + tax - discount.amount`. -/
theorem totals_invariant (catalog : String → Option Product) (now : Nat) (w : World)
    (op : CartOp) (c : Cart) (h : (op.run catalog now w).1 = .ok c) :
    (c.total = (c.items.map (fun item => item.price * item.quantity)).sum ∧
        c.grandTotal = c.total + c.shipping.cost + c.tax - c.discount.amount.getD 0) ∧
      (op.run catalog now w).2.doc = c ∧ (op.run catalog now w).2.stored = some c := by
  have key : TotalsConsistent c ∧ (op.run catalog now w).2.doc = c ∧
      (op.run catalog now w).2.stored = some c := by
    cases op with
    | addItem productId quantity variant newId =>
      simp only [CartOp.run, addItem] at h ⊢
      split at h
      · simp at h
      · split at h
        · simp at h
        · rename_i hs
          simp only [hs, if_false]
          exact calculateTotals_ok_consistent _ _ _ h
    | updateQuantity itemId quantity =>
      simp only [CartOp.run, updateQuantity] at h ⊢
      split at h
      · simp at h
      · split at h
        · simp at h
        · split at h
          · simp at h
          · rename_i hs
            simp only [hs, if_false]
            exact calculateTotals_ok_consistent _ _ _ h
    | removeItem itemId => exact calculateTotals_ok_consistent _ _ _ h
    | clearCart =>
      simp only [CartOp.run, clearCart] at h ⊢
      obtain ⟨hc, hw⟩ := save_ok _ c h
      rw [hw]
      subst hc
      simp [TotalsConsistent, subtotalOf]
    | applyDiscount code => exact calculateTotals_ok_consistent _ _ _ h
    | updateShipping method cost => exact calculateTotals_ok_consistent _ _ _ h
  exact key

/-- Witness for C1: adding two units of a product priced 10 to a fresh cart
succeeds with total 20 and grand total 20. -/
theorem totals_invariant_witness :
    ((CartOp.addItem "p" 2 none "i1").run demoCatalog 1 freshWorld).1 =
        .ok { emptyCart "u" with
              items := [{ _id := "i1", product := "p", variant := none, quantity := 2, price := 10 }]
              total := 20, grandTotal := 20, lastUpdated := 1 } ∧
      (((20 : ℚ) = ([({ _id := "i1", product := "p", variant := none, quantity := 2,
                        price := 10 } : Item)].map
                      (fun item => item.price * item.quantity)).sum ∧
          (20 : ℚ) = 20 + (emptyCart "u").shipping.cost + (emptyCart "u").tax -
            (emptyCart "u").discount.amount.getD 0) ∧
        ((CartOp.addItem "p" 2 none "i1").run demoCatalog 1 freshWorld).2.doc =
          { emptyCart "u" with
            items := [{ _id := "i1", product := "p", variant := none, quantity := 2, price := 10 }]
            total := 20, grandTotal := 20, lastUpdated := 1 } ∧
        ((CartOp.addItem "p" 2 none "i1").run demoCatalog 1 freshWorld).2.stored =
          some { emptyCart "u" with
            items := [{ _id := "i1", product := "p", variant := none, quantity := 2, price := 10 }]
            total := 20, grandTotal := 20, lastUpdated := 1 }) :=
  have h : ((CartOp.addItem "p" 2 none "i1").run demoCatalog 1 freshWorld).1 =
      .ok { emptyCart "u" with
            items := [{ _id := "i1", product := "p", variant := none, quantity := 2, price := 10 }]
            total := 20, grandTotal := 20, lastUpdated := 1 } := by
    simp [CartOp.run, addItem, demoCatalog, freshWorld, emptyCart, calculateTotals, save,
      validate, recompute, itemsTotal, addItemMatch]
    norm_num
  ⟨h, totals_invariant demoCatalog 1 freshWorld _ _ h⟩

/-- C2. After `calculateTotals` the cart's `total` is the sum over its line
items of `price * quantity`, the items themselves being untouched; the call
resolves with that cart exactly when the cart passes the schema validation
of `save`.  An empty cart gets total 0, and the lines 10 x 2 and 5 x 1 give
25. -/
theorem calculateTotals_subtotal :
    (∀ (now : Nat) (w : World),
        (calculateTotals now w).2.doc.items = w.doc.items ∧
        (calculateTotals now w).2.doc.total =
          (w.doc.items.map (fun item => item.price * item.quantity)).sum ∧
        (calculateTotals now w).1 =
          if validate w.doc then Except.ok (calculateTotals now w).2.doc
          else Except.error CartError.validationFailed) ∧
      (∀ (now : Nat) (c : Cart) (stored : Option Cart),
        (calculateTotals now { doc := { c with items := [] }, stored := stored }).2.doc.total = 0) ∧
      (calculateTotals 7 { doc := totalsExample, stored := none }).2.doc.total = 25 := by
  refine ⟨fun now w => ⟨?_, ?_, ?_⟩, fun now c stored => ?_, ?_⟩
  · rw [calculateTotals_doc]; rfl
  · rw [calculateTotals_doc]
    exact itemsTotal_eq_subtotalOf w.doc.items
  · rw [calculateTotals_doc]; exact calculateTotals_result now w
  · rw [calculateTotals_doc]; simp [recompute, itemsTotal]
  · rw [calculateTotals_doc]; simp [recompute, itemsTotal, totalsExample]; norm_num

/-- C3. After `calculateTotals` the cart's `grandTotal` is
`subtotal + shipping.cost + tax - discount.amount`, where the subtotal is the
freshly computed `total`, a missing discount amount counts as 0, and shipping,
tax and discount are left as they were; subtotal 25, shipping 3, tax 1 and
discount 2 give 27. -/
theorem calculateTotals_grandTotal :
    (∀ (now : Nat) (w : World),
        (calculateTotals now w).2.doc.grandTotal =
          (calculateTotals now w).2.doc.total + w.doc.shipping.cost + w.doc.tax -
            (match w.doc.discount.amount with
              | some amount => amount
              | none => 0) ∧
        (calculateTotals now w).2.doc.shipping = w.doc.shipping ∧
        (calculateTotals now w).2.doc.tax = w.doc.tax ∧
        (calculateTotals now w).2.doc.discount = w.doc.discount) ∧
      (calculateTotals 7 { doc := totalsExample, stored := none }).2.doc.total = 25 ∧
      (calculateTotals 7 { doc := totalsExample, stored := none }).2.doc.grandTotal = 27 := by
  refine ⟨fun now w => ⟨?_, ?_, ?_, ?_⟩, ?_, ?_⟩
  · rw [calculateTotals_doc]
    cases h : w.doc.discount.amount <;> simp [recompute, h]
  · rw [calculateTotals_doc]; rfl
  · rw [calculateTotals_doc]; rfl
  · rw [calculateTotals_doc]; rfl
  · rw [calculateTotals_doc]; simp [recompute, itemsTotal, totalsExample]; norm_num
  · rw [calculateTotals_doc]; simp [recompute, itemsTotal, totalsExample]; norm_num

/-! ## `addItem`: merge and append -/

/-- C4. Merge correctness: when the product resolves with stock at least `q`
and `it` is the first line item that the lookup of `addItem` accepts for
(product, variant), `addItem(product, q, variant)` keeps the number of line
items, adds exactly `q` to the quantity of `it`, overwrites its price with the
product's current price and leaves every other line item in place; the call
resolves with that cart and stores it when every quantity in it is at least 1.
In particular adding 2 and then 3 units of one product with the same variant
to a cart without items yields a single line item of quantity 5 at the price
the product has at the second add. -/
theorem addItem_merge :
    (∀ (catalog : String → Option Product) (productId : String) (q : ℚ)
        (variant : Option Variant) (newId : String) (now : Nat) (w : World)
        (product : Product) (pre post : List Item) (it : Item),
        catalog productId = some product → q ≤ product.stock →
        w.doc.items = pre ++ it :: post →
        (∀ x ∈ pre, ¬ Matches productId variant x) → Matches productId variant it →
        (addItem catalog productId q variant newId now w).2.doc.items =
            pre ++ { it with quantity := it.quantity + q, price := product.price } :: post ∧
          (addItem catalog productId q variant newId now w).2.doc.items.length =
            w.doc.items.length ∧
          ((∀ x ∈ (addItem catalog productId q variant newId now w).2.doc.items,
              1 ≤ x.quantity) →
            (addItem catalog productId q variant newId now w).1 =
                .ok (addItem catalog productId q variant newId now w).2.doc ∧
              (addItem catalog productId q variant newId now w).2.stored =
                some (addItem catalog productId q variant newId now w).2.doc)) ∧
      (∀ (first second : String → Option Product) (productId : String)
        (variant : Option Variant) (id1 id2 : String) (now1 now2 : Nat) (c : Cart)
        (stored : Option Cart) (p1 p2 : Product),
        first productId = some p1 → second productId = some p2 →
        2 ≤ p1.stock → 3 ≤ p2.stock →
        (addItem second productId 3 variant id2 now2
            (addItem first productId 2 variant id1 now1
              { doc := { c with items := [] }, stored := stored }).2).2.doc.items =
            [{ _id := id1, product := productId, variant := variant, quantity := 5,
               price := p2.price }] ∧
          (addItem second productId 3 variant id2 now2
            (addItem first productId 2 variant id1 now1
              { doc := { c with items := [] }, stored := stored }).2).1 =
            .ok (addItem second productId 3 variant id2 now2
              (addItem first productId 2 variant id1 now1
                { doc := { c with items := [] }, stored := stored }).2).2.doc) := by
  constructor
  · intro catalog productId q variant newId now w product pre post it hcat hq hitems hpre hit
    have hrun := addItem_merge_run catalog productId q variant newId now w product pre post it
      hcat (not_lt.2 hq) hitems hpre hit
    rw [hrun]
    refine ⟨?_, ?_, ?_⟩
    · rw [calculateTotals_doc]; rfl
    · rw [calculateTotals_doc, hitems]; simp [recompute]
    · intro hvalid
      rw [calculateTotals_doc] at hvalid
      have hv : ∀ x ∈ ({ w with doc := { w.doc with
          items := pre ++ merged q product.price it :: post } } : World).doc.items,
          1 ≤ x.quantity := hvalid
      rw [calculateTotals_of_valid now _ hv]
      exact ⟨rfl, rfl⟩
  · intro first second productId variant id1 id2 now1 now2 c stored p1 p2 h1 h2 hs1 hs2
    have e1 : ¬ p1.stock < 2 := not_lt.2 hs1
    have e2 : ¬ p2.stock < 3 := not_lt.2 hs2
    have e3 : (2 : ℚ) + 3 = 5 := by norm_num
    have e4 : (1 : ℚ) ≤ 2 := by norm_num
    have e5 : (1 : ℚ) ≤ 5 := by norm_num
    cases variant with
    | none =>
      simp [addItem, h1, h2, e1, e2, e3, e4, e5, calculateTotals, save, validate, recompute,
        addItemMatch, modifyFirst]
    | some v =>
      simp [addItem, h1, h2, e1, e2, e3, e4, e5, calculateTotals, save, validate, recompute,
        addItemMatch, modifyFirst]

/-- Witness for C4: three more units of the size-M line at the new price 12
turn the line of quantity 2 into one of quantity 2 + 3 at price 12. -/
theorem addItem_merge_witness :
    demoCatalogLater "p" = some { price := 12, stock := 5 } ∧ (3 : ℚ) ≤ 5 ∧
      Matches "p" (some sizeM) lineM ∧
      (addItem demoCatalogLater "p" 3 (some sizeM) "i2" 2 oneLineWorld).2.doc.items =
        [] ++ { lineM with quantity := lineM.quantity + 3, price := 12 } :: [] :=
  have hcat : demoCatalogLater "p" = some { price := 12, stock := 5 } := by
    simp [demoCatalogLater]
  have hq : (3 : ℚ) ≤ ({ price := 12, stock := 5 } : Product).stock := by norm_num
  have hm : Matches "p" (some sizeM) lineM := by simp [Matches, lineM]
  ⟨hcat, hq, hm,
    (addItem_merge.1 demoCatalogLater "p" 3 (some sizeM) "i2" 2 oneLineWorld
      { price := 12, stock := 5 } [] [] lineM hcat hq rfl (by simp) hm).1⟩

/-- C5, as stated, fails: the cart holds one line for product `"p"`, which
carries the variant (size, M); `addItem("p", 2)` without a variant succeeds,
appends nothing and raises the quantity of that line from 2 to 4. -/
theorem addItem_missing_variant_counterexample :
    (∀ item ∈ oneLineWorld.doc.items, item.product = "p" → item.variant ≠ none) ∧
      (addItem demoCatalog "p" 2 none "i2" 2 oneLineWorld).2.doc.items =
        [{ _id := "i1", product := "p", variant := some sizeM, quantity := 4, price := 10 }] ∧
      (addItem demoCatalog "p" 2 none "i2" 2 oneLineWorld).1 =
        .ok (addItem demoCatalog "p" 2 none "i2" 2 oneLineWorld).2.doc := by
  have e : (2 : ℚ) + 2 = 4 := by norm_num
  have e1 : (1 : ℚ) ≤ 4 := by norm_num
  have e2 : ¬ (5 : ℚ) < 2 := by norm_num
  refine ⟨?_, ?_, ?_⟩
  · simp [oneLineWorld, oneLineCart, lineM]
  · simp [addItem, demoCatalog, oneLineWorld, oneLineCart, lineM, emptyCart, calculateTotals,
      save, validate, recompute, addItemMatch, modifyFirst, e, e1, e2]
  · simp [addItem, demoCatalog, oneLineWorld, oneLineCart, lineM, emptyCart, calculateTotals,
      save, validate, recompute, addItemMatch, modifyFirst, e, e1, e2]

/-- C5, amended: called without a variant, `addItem(p, q)` matches on the
product alone.  When the product resolves with stock at least `q`, it merges
into the first line item for `p`, whatever variant that line carries (its
quantity grows by `q`, its price becomes the product's current price, nothing
is appended), and it appends a new line item without variant exactly when the
cart holds no line item for `p`. -/
theorem addItem_missing_variant (catalog : String → Option Product) (productId : String)
    (q : ℚ) (newId : String) (now : Nat) (w : World) (product : Product)
    (hcat : catalog productId = some product) (hq : q ≤ product.stock) :
    (∀ (pre post : List Item) (it : Item), w.doc.items = pre ++ it :: post →
        (∀ x ∈ pre, x.product ≠ productId) → it.product = productId →
        (addItem catalog productId q none newId now w).2.doc.items =
          pre ++ { it with quantity := it.quantity + q, price := product.price } :: post) ∧
      ((∀ x ∈ w.doc.items, x.product ≠ productId) →
        (addItem catalog productId q none newId now w).2.doc.items =
          w.doc.items ++
            [{ _id := newId, product := productId, variant := none, quantity := q,
               price := product.price }]) := by
  constructor
  · intro pre post it hitems hpre hit
    rw [addItem_merge_run catalog productId q none newId now w product pre post it hcat
      (not_lt.2 hq) hitems (fun x hx hm => hpre x hx hm.1) ⟨hit, Or.inl rfl⟩,
      calculateTotals_doc]
    rfl
  · intro hno
    rw [addItem_push_run catalog productId q none newId now w product hcat (not_lt.2 hq)
      (fun x hx hm => hno x hx hm.1), calculateTotals_doc]
    rfl

/-- Witness for the amended C5: on the cart whose only line is the size-M line
of product `"p"`, an add of one unit without variant merges into that line. -/
theorem addItem_missing_variant_witness :
    demoCatalog "p" = some { price := 10, stock := 5 } ∧ (1 : ℚ) ≤ 5 ∧
      lineM.product = "p" ∧
      (addItem demoCatalog "p" 1 none "i2" 2 oneLineWorld).2.doc.items =
        [] ++ { lineM with quantity := lineM.quantity + 1, price := 10 } :: [] :=
  have hcat : demoCatalog "p" = some { price := 10, stock := 5 } := by simp [demoCatalog]
  have hq : (1 : ℚ) ≤ ({ price := 10, stock := 5 } : Product).stock := by norm_num
  ⟨hcat, hq, rfl,
    (addItem_missing_variant demoCatalog "p" 1 "i2" 2 oneLineWorld { price := 10, stock := 5 }
      hcat hq).1 [] [] lineM rfl (by simp) rfl⟩

/-- C6. Distinct-variant non-merge: `addItem(p, q, v)` with a variant `v`
leaves every line item whose variant is not `v` (another name or option, or no
variant) exactly as it was and where it was, whatever the outcome of the call;
and adding `p` with variant `v1` and then `p` with a different variant `v2`
(such as (size, M) then (size, L)) to a cart without items yields two line
items. -/
theorem addItem_distinct_variant :
    (∀ (catalog : String → Option Product) (productId : String) (q : ℚ) (v : Variant)
        (newId : String) (now : Nat) (w : World) (i : Nat) (it : Item),
        w.doc.items[i]? = some it → it.variant ≠ some v →
        (addItem catalog productId q (some v) newId now w).2.doc.items[i]? = some it) ∧
      (∀ (catalog : String → Option Product) (productId : String) (q1 q2 : ℚ)
        (v1 v2 : Variant) (id1 id2 : String) (now1 now2 : Nat) (c : Cart)
        (stored : Option Cart) (product : Product),
        catalog productId = some product → v1 ≠ v2 →
        1 ≤ q1 → q1 ≤ product.stock → 1 ≤ q2 → q2 ≤ product.stock →
        (addItem catalog productId q2 (some v2) id2 now2
            (addItem catalog productId q1 (some v1) id1 now1
              { doc := { c with items := [] }, stored := stored }).2).2.doc.items =
          [{ _id := id1, product := productId, variant := some v1, quantity := q1,
             price := product.price },
           { _id := id2, product := productId, variant := some v2, quantity := q2,
             price := product.price }]) ∧
      (addItem demoCatalog "p" 1 (some sizeL) "i2" 2
          (addItem demoCatalog "p" 1 (some sizeM) "i1" 1 freshWorld).2).2.doc.items.length = 2 := by
  have general : ∀ (catalog : String → Option Product) (productId : String) (q1 q2 : ℚ)
      (v1 v2 : Variant) (id1 id2 : String) (now1 now2 : Nat) (c : Cart)
      (stored : Option Cart) (product : Product),
      catalog productId = some product → v1 ≠ v2 →
      1 ≤ q1 → q1 ≤ product.stock → 1 ≤ q2 → q2 ≤ product.stock →
      (addItem catalog productId q2 (some v2) id2 now2
          (addItem catalog productId q1 (some v1) id1 now1
            { doc := { c with items := [] }, stored := stored }).2).2.doc.items =
        [{ _id := id1, product := productId, variant := some v1, quantity := q1,
           price := product.price },
         { _id := id2, product := productId, variant := some v2, quantity := q2,
           price := product.price }] := by
    intro catalog productId q1 q2 v1 v2 id1 id2 now1 now2 c stored product hcat hne h1 hs1 h2 hs2
    have e1 : ¬ product.stock < q1 := not_lt.2 hs1
    have e2 : ¬ product.stock < q2 := not_lt.2 hs2
    have hne2 : ¬ (v1.name = v2.name ∧ v1.option = v2.option) := by
      intro h
      apply hne
      cases v1; cases v2
      simp only [Variant.mk.injEq]
      exact h
    have hm : addItemMatch productId (some v2)
        { _id := id1, product := productId, variant := some v1, quantity := q1,
          price := product.price } = false := by
      simp only [addItemMatch, Option.isNone_some, Bool.false_or, Bool.and_eq_false_imp,
        beq_iff_eq, Bool.and_eq_false_iff, beq_eq_false_iff_ne]
      intro _
      by_contra hcon
      push_neg at hcon
      exact hne2 hcon
    simp [addItem, hcat, e1, e2, h1, h2, calculateTotals, save, validate, recompute, hm]
  refine ⟨?_, general, ?_⟩
  · intro catalog productId q v newId now w i it hi hv
    have hm : addItemMatch productId (some v) it = false := by
      rw [addItemMatch_eq_false_iff]
      rintro ⟨_, h | h⟩
      · cases h
      · exact hv h
    unfold addItem
    split
    · exact hi
    · split
      · exact hi
      · rw [calculateTotals_doc]
        show (recompute now _).items[i]? = some it
        simp only [recompute]
        split
        · exact modifyFirst_getElem? _ _ _ i it hi hm
        · rw [List.getElem?_append_left]
          · exact hi
          · exact (List.getElem?_eq_some_iff.1 hi).1
  · have h := general demoCatalog "p" 1 1 sizeM sizeL "i1" "i2" 1 2 (emptyCart "u") none
      { price := 10, stock := 5 } (by simp [demoCatalog]) (by simp [sizeM, sizeL])
      (by norm_num) (by norm_num) (by norm_num) (by norm_num)
    have hw : ({ doc := { emptyCart "u" with items := [] }, stored := none } : World) =
        freshWorld := rfl
    rw [hw] at h
    rw [h]
    rfl

/-- Witness for C6: adding product `"p"` in size L to the cart that holds it in
size M leaves the size-M line, at index 0, as it was. -/
theorem addItem_distinct_variant_witness :
    oneLineWorld.doc.items[0]? = some lineM ∧ lineM.variant ≠ some sizeL ∧
      (addItem demoCatalog "p" 1 (some sizeL) "i2" 2 oneLineWorld).2.doc.items[0]? =
        some lineM :=
  have hv : lineM.variant ≠ some sizeL := by simp [lineM, sizeM, sizeL]
  ⟨rfl, hv,
    addItem_distinct_variant.1 demoCatalog "p" 1 sizeL "i2" 2 oneLineWorld 0 lineM rfl hv⟩

/-- C7, as stated, fails: the cart holds one line, product `"p"` in size M,
so no line item has product `"p"` and no variant; `addItem("p", 1)` without a
variant succeeds at the new price 12, and the returned cart has that one line
only, its quantity raised from 2 to 3 and its price overwritten: the old item
is changed and no new item follows it. -/
theorem addItem_append_counterexample :
    (∀ item ∈ oneLineWorld.doc.items, ¬ (item.product = "p" ∧ item.variant = none)) ∧
      (addItem demoCatalogLater "p" 1 none "i2" 2 oneLineWorld).1 =
        .ok (addItem demoCatalogLater "p" 1 none "i2" 2 oneLineWorld).2.doc ∧
      (addItem demoCatalogLater "p" 1 none "i2" 2 oneLineWorld).2.doc.items =
        [{ _id := "i1", product := "p", variant := some sizeM, quantity := 3, price := 12 }] ∧
      (addItem demoCatalogLater "p" 1 none "i2" 2 oneLineWorld).2.doc.items ≠
        oneLineWorld.doc.items ++
          [{ _id := "i2", product := "p", variant := none, quantity := 1, price := 12 }] := by
  have e : (2 : ℚ) + 1 = 3 := by norm_num
  have e1 : (1 : ℚ) ≤ 3 := by norm_num
  have e2 : ¬ (5 : ℚ) < 1 := by norm_num
  have hitems : (addItem demoCatalogLater "p" 1 none "i2" 2 oneLineWorld).2.doc.items =
      [{ _id := "i1", product := "p", variant := some sizeM, quantity := 3, price := 12 }] := by
    simp [addItem, demoCatalogLater, oneLineWorld, oneLineCart, lineM, emptyCart,
      calculateTotals, save, validate, recompute, addItemMatch, modifyFirst, e, e1, e2]
  refine ⟨?_, ?_, hitems, ?_⟩
  · simp [oneLineWorld, oneLineCart, lineM]
  · simp [addItem, demoCatalogLater, oneLineWorld, oneLineCart, lineM, emptyCart,
      calculateTotals, save, validate, recompute, addItemMatch, modifyFirst, e, e1, e2]
  · rw [hitems]
    simp [oneLineWorld, oneLineCart]

/-- C7, amended: append on no match, where a match is what the lookup of
`addItem` accepts: a line item of the product that, when a variant is given,
carries exactly that variant, and any line item of the product when no variant
is given.  When the cart has no such line item, a successful
`addItem(product, q, variant)` returns the old items, unchanged and in the
same order, followed by exactly one new last item with that product, that
variant, quantity `q` and the product's current price; the returned cart is
the one in memory and the one stored. -/
theorem addItem_append (catalog : String → Option Product) (productId : String) (q : ℚ)
    (variant : Option Variant) (newId : String) (now : Nat) (w : World) (c : Cart)
    (hno : ∀ x ∈ w.doc.items,
      ¬ (x.product = productId ∧ (variant = none ∨ x.variant = variant)))
    (hok : (addItem catalog productId q variant newId now w).1 = .ok c) :
    ∃ product, catalog productId = some product ∧
      c.items = w.doc.items ++
        [{ _id := newId, product := productId, variant := variant, quantity := q,
           price := product.price }] ∧
      (addItem catalog productId q variant newId now w).2.doc = c ∧
      (addItem catalog productId q variant newId now w).2.stored = some c := by
  cases hcat : catalog productId with
  | none => simp [addItem, hcat] at hok
  | some product =>
    by_cases hstock : product.stock < q
    · simp [addItem, hcat, hstock] at hok
    · rw [addItem_push_run catalog productId q variant newId now w product hcat hstock hno]
        at hok ⊢
      obtain ⟨hc, hw⟩ := calculateTotals_ok _ _ _ hok
      refine ⟨product, rfl, ?_, ?_, ?_⟩
      · rw [hc]; rfl
      · rw [hw, hc]
      · rw [hw, hc]

/-- Witness for the amended C7: the cart holds product `"p"` in size M only, so
an add of one unit in size L finds no match, succeeds and appends the new line
last. -/
theorem addItem_append_witness :
    (∀ x ∈ oneLineWorld.doc.items, ¬ Matches "p" (some sizeL) x) ∧
      ∃ product, demoCatalog "p" = some product ∧
        ({ oneLineCart with
            items := [lineM, { _id := "i2", product := "p", variant := some sizeL,
                               quantity := 1, price := 10 }]
            total := 30, grandTotal := 30, lastUpdated := 2 } : Cart).items =
          oneLineWorld.doc.items ++
            [{ _id := "i2", product := "p", variant := some sizeL, quantity := 1,
               price := product.price }] ∧
        (addItem demoCatalog "p" 1 (some sizeL) "i2" 2 oneLineWorld).2.doc =
          { oneLineCart with
            items := [lineM, { _id := "i2", product := "p", variant := some sizeL,
                               quantity := 1, price := 10 }]
            total := 30, grandTotal := 30, lastUpdated := 2 } ∧
        (addItem demoCatalog "p" 1 (some sizeL) "i2" 2 oneLineWorld).2.stored =
          some { oneLineCart with
            items := [lineM, { _id := "i2", product := "p", variant := some sizeL,
                               quantity := 1, price := 10 }]
            total := 30, grandTotal := 30, lastUpdated := 2 } :=
  have hno : ∀ x ∈ oneLineWorld.doc.items, ¬ Matches "p" (some sizeL) x := by
    simp [oneLineWorld, oneLineCart, lineM, Matches, sizeM, sizeL]
  have hok : (addItem demoCatalog "p" 1 (some sizeL) "i2" 2 oneLineWorld).1 =
      .ok { oneLineCart with
            items := [lineM, { _id := "i2", product := "p", variant := some sizeL,
                               quantity := 1, price := 10 }]
            total := 30, grandTotal := 30, lastUpdated := 2 } := by
    simp [addItem, demoCatalog, oneLineWorld, oneLineCart, lineM, emptyCart, calculateTotals,
      save, validate, recompute, itemsTotal, addItemMatch, sizeM, sizeL]
    norm_num
  ⟨hno, addItem_append demoCatalog "p" 1 (some sizeL) "i2" 2 oneLineWorld _ hno hok⟩

/-! ## `addItem`: failures -/

/-- C8. Stock gate: when the product resolves with stock below the requested
quantity, `addItem` rejects with the error whose message is
'Insufficient stock'; the document in memory (items, total, grand total and
every other field) is as before and the store is not written. -/
theorem addItem_insufficient_stock (catalog : String → Option Product) (productId : String)
    (q : ℚ) (variant : Option Variant) (newId : String) (now : Nat) (w : World)
    (product : Product) (hcat : catalog productId = some product) (hstock : product.stock < q) :
    (addItem catalog productId q variant newId now w).1 = .error .insufficientStock ∧
      CartError.message .insufficientStock = "Insufficient stock" ∧
      (addItem catalog productId q variant newId now w).2.doc.items = w.doc.items ∧
      (addItem catalog productId q variant newId now w).2.doc.total = w.doc.total ∧
      (addItem catalog productId q variant newId now w).2.doc.grandTotal = w.doc.grandTotal ∧
      (addItem catalog productId q variant newId now w).2.doc = w.doc ∧
      (addItem catalog productId q variant newId now w).2.stored = w.stored := by
  simp [addItem, hcat, hstock, CartError.message]

/-- Witness for C8: six units of a product with stock 5. -/
theorem addItem_insufficient_stock_witness :
    demoCatalog "p" = some { price := 10, stock := 5 } ∧ (5 : ℚ) < 6 ∧
      (addItem demoCatalog "p" 6 none "i2" 2 oneLineWorld).1 = .error .insufficientStock ∧
      (addItem demoCatalog "p" 6 none "i2" 2 oneLineWorld).2.doc = oneLineWorld.doc ∧
      (addItem demoCatalog "p" 6 none "i2" 2 oneLineWorld).2.stored = oneLineWorld.stored :=
  have hcat : demoCatalog "p" = some { price := 10, stock := 5 } := by simp [demoCatalog]
  have hs : ({ price := 10, stock := 5 } : Product).stock < 6 := by norm_num
  have h := addItem_insufficient_stock demoCatalog "p" 6 none "i2" 2 oneLineWorld
    { price := 10, stock := 5 } hcat hs
  ⟨hcat, hs, h.1, h.2.2.2.2.2.1, h.2.2.2.2.2.2⟩

/-- C9. `addItem` rejects with the error whose message is 'Product not found'
exactly when the product id does not resolve in the catalog, whatever the
requested quantity (the stock is never consulted then); on that rejection the
document in memory is as before and the store is not written. -/
theorem addItem_product_not_found (catalog : String → Option Product) (productId : String)
    (q : ℚ) (variant : Option Variant) (newId : String) (now : Nat) (w : World) :
    ((addItem catalog productId q variant newId now w).1 = .error .productNotFound ↔
        catalog productId = none) ∧
      CartError.message .productNotFound = "Product not found" ∧
      ((addItem catalog productId q variant newId now w).1 = .error .productNotFound →
        (addItem catalog productId q variant newId now w).2 = w) := by
  have hiff : (addItem catalog productId q variant newId now w).1 = .error .productNotFound ↔
      catalog productId = none := by
    cases hcat : catalog productId with
    | none => simp [addItem, hcat]
    | some product =>
      by_cases hstock : product.stock < q
      · simp [addItem, hcat, hstock]
      · simp only [addItem, hcat, hstock, if_false, calculateTotals_result]
        split <;> simp
  refine ⟨hiff, rfl, fun h => ?_⟩
  have hcat := hiff.1 h
  simp [addItem, hcat]

/-- Witness for C9: product `"zz"` is not in the catalog; asking for a
thousand units of it is rejected as not found, and the world is as before. -/
theorem addItem_product_not_found_witness :
    demoCatalog "zz" = none ∧
      (addItem demoCatalog "zz" 1000 none "i2" 2 oneLineWorld).1 = .error .productNotFound ∧
      (addItem demoCatalog "zz" 1000 none "i2" 2 oneLineWorld).2 = oneLineWorld :=
  have hcat : demoCatalog "zz" = none := by simp [demoCatalog]
  have h := addItem_product_not_found demoCatalog "zz" 1000 none "i2" 2 oneLineWorld
  ⟨hcat, h.1.2 hcat, h.2.2 (h.1.2 hcat)⟩

/-! ## `updateQuantity`: failures -/

theorem find?_id_eq_none_iff (itemId : String) (l : List Item) :
    l.find? (fun item => item._id == itemId) = none ↔ ∀ x ∈ l, x._id ≠ itemId := by
  simp [List.find?_eq_none]

theorem modifyFirst_forall (p : Item → Bool) (f : Item → Item) (P : Item → Prop)
    (l : List Item) (hl : ∀ x ∈ l, P x) (hf : ∀ x, p x = true → P (f x)) :
    ∀ x ∈ modifyFirst p f l, P x := by
  induction l with
  | nil => simp [modifyFirst]
  | cons y ys ih =>
    have hy : P y := hl y (by simp)
    have hys : ∀ x ∈ ys, P x := fun x hx => hl x (by simp [hx])
    by_cases hp : p y = true
    · intro x hx
      have hx2 : x = f y ∨ x ∈ ys := by simpa [modifyFirst, hp] using hx
      rcases hx2 with h | h
      · rw [h]; exact hf y hp
      · exact hys x h
    · intro x hx
      have hx2 : x = y ∨ x ∈ modifyFirst p f ys := by simpa [modifyFirst, hp] using hx
      rcases hx2 with h | h
      · rw [h]; exact hy
      · exact ih hys x h

theorem updateQuantity_run (catalog : String → Option Product) (itemId : String) (q : ℚ)
    (now : Nat) (w : World) (item : Item) (product : Product)
    (hfind : w.doc.items.find? (fun item => item._id == itemId) = some item)
    (hcat : catalog item.product = some product) (hstock : ¬ product.stock < q) :
    updateQuantity catalog itemId q now w =
      calculateTotals now
        { w with doc := { w.doc with
            items := modifyFirst (fun item => item._id == itemId)
              (fun item => { item with quantity := q }) w.doc.items } } := by
  simp only [updateQuantity, hfind, hcat, hstock, if_false]

/-- C10, as stated, fails: the cart holds line `"i1"`, its product resolves with
stock 5, which is not below the requested quantity 0, and still
`updateQuantity("i1", 0)` does not succeed: `save` rejects the quantity 0
against the schema's `min: 1`, with an error that is none of the three named
ones, and the store keeps the old cart. -/
theorem updateQuantity_failures_counterexample :
    oneLineWorld.doc.items.find? (fun item => item._id == "i1") = some lineM ∧
      demoCatalog lineM.product = some { price := 10, stock := 5 } ∧
      ¬ ((5 : ℚ) < 0) ∧
      (updateQuantity demoCatalog "i1" 0 2 oneLineWorld).1 = .error .validationFailed ∧
      (updateQuantity demoCatalog "i1" 0 2 oneLineWorld).2.stored = some oneLineCart := by
  have e : ¬ ((5 : ℚ) < 0) := by norm_num
  have e1 : ¬ ((1 : ℚ) ≤ 0) := by norm_num
  refine ⟨?_, ?_, e, ?_, ?_⟩
  · simp [oneLineWorld, oneLineCart, lineM]
  · simp [demoCatalog, lineM]
  · simp [updateQuantity, demoCatalog, oneLineWorld, oneLineCart, lineM, emptyCart,
      calculateTotals, save, validate, recompute, modifyFirst, e, e1]
  · simp [updateQuantity, demoCatalog, oneLineWorld, oneLineCart, lineM, emptyCart,
      calculateTotals, save, validate, recompute, modifyFirst, e, e1]

/-- C10, amended: `updateQuantity` rejects with 'Item not found in cart'
exactly when no line item has id `itemId`; otherwise, `item` being the first
line item with that id, with 'Product not found' exactly when the product of
`item` does not resolve; otherwise with 'Insufficient stock' exactly when the
product's stock is below the requested quantity; otherwise it sets the
quantity and saves, which succeeds exactly when every quantity in the cart is
then at least 1 (as it is when the request is at least 1 and the cart was
valid) and is rejected by validation if not.  On the three named failures the
document in memory and the store are as before; on every failure the store is
as before. -/
theorem updateQuantity_failures (catalog : String → Option Product) (itemId : String) (q : ℚ)
    (now : Nat) (w : World) :
    ((updateQuantity catalog itemId q now w).1 = .error .itemNotFound ↔
        ∀ x ∈ w.doc.items, x._id ≠ itemId) ∧
      (∀ item, w.doc.items.find? (fun item => item._id == itemId) = some item →
        ((updateQuantity catalog itemId q now w).1 = .error .productNotFound ↔
            catalog item.product = none) ∧
          ∀ product, catalog item.product = some product →
            ((updateQuantity catalog itemId q now w).1 = .error .insufficientStock ↔
                product.stock < q) ∧
              (¬ product.stock < q →
                ((updateQuantity catalog itemId q now w).1 =
                      .ok (updateQuantity catalog itemId q now w).2.doc ↔
                    ∀ x ∈ (updateQuantity catalog itemId q now w).2.doc.items,
                      1 ≤ x.quantity) ∧
                  ((updateQuantity catalog itemId q now w).1 =
                      .ok (updateQuantity catalog itemId q now w).2.doc ∨
                    (updateQuantity catalog itemId q now w).1 = .error .validationFailed) ∧
                  (1 ≤ q → (∀ x ∈ w.doc.items, 1 ≤ x.quantity) →
                    (updateQuantity catalog itemId q now w).1 =
                      .ok (updateQuantity catalog itemId q now w).2.doc))) ∧
      (CartError.message .itemNotFound = "Item not found in cart" ∧
        CartError.message .productNotFound = "Product not found" ∧
        CartError.message .insufficientStock = "Insufficient stock") ∧
      ((updateQuantity catalog itemId q now w).1 = .error .itemNotFound ∨
          (updateQuantity catalog itemId q now w).1 = .error .productNotFound ∨
          (updateQuantity catalog itemId q now w).1 = .error .insufficientStock →
        (updateQuantity catalog itemId q now w).2 = w) ∧
      (∀ e, (updateQuantity catalog itemId q now w).1 = .error e →
        (updateQuantity catalog itemId q now w).2.stored = w.stored) := by
  cases hfind : w.doc.items.find? (fun item => item._id == itemId) with
  | none =>
    have hnone := (find?_id_eq_none_iff itemId w.doc.items).1 hfind
    have hrun : updateQuantity catalog itemId q now w = (.error .itemNotFound, w) := by
      simp only [updateQuantity, hfind]
    rw [hrun]
    refine ⟨by simpa using hnone, fun item h => by simp at h, ⟨rfl, rfl, rfl⟩, fun _ => rfl,
      fun _ _ => rfl⟩
  | some item =>
    have hsome : ¬ ∀ x ∈ w.doc.items, x._id ≠ itemId := by
      intro h
      rw [(find?_id_eq_none_iff itemId w.doc.items).2 h] at hfind
      cases hfind
    cases hcat : catalog item.product with
    | none =>
      have hrun : updateQuantity catalog itemId q now w = (.error .productNotFound, w) := by
        simp only [updateQuantity, hfind, hcat]
      rw [hrun]
      refine ⟨by simpa using hsome, ?_, ⟨rfl, rfl, rfl⟩, fun _ => rfl, fun _ _ => rfl⟩
      intro item2 h2
      simp only [Option.some.injEq] at h2
      subst h2
      exact ⟨by simp [hcat], fun product hp => by simp [hcat] at hp⟩
    | some product =>
      by_cases hstock : product.stock < q
      · have hrun : updateQuantity catalog itemId q now w = (.error .insufficientStock, w) := by
          simp only [updateQuantity, hfind, hcat, hstock, if_true]
        rw [hrun]
        refine ⟨by simpa using hsome, ?_, ⟨rfl, rfl, rfl⟩, fun _ => rfl, fun _ _ => rfl⟩
        intro item2 h2
        simp only [Option.some.injEq] at h2
        subst h2
        refine ⟨by simp [hcat], fun product2 hp => ?_⟩
        rw [hcat] at hp
        simp only [Option.some.injEq] at hp
        subst hp
        exact ⟨by simp [hstock], fun hn => absurd hstock hn⟩
      · have hrun := updateQuantity_run catalog itemId q now w item product hfind hcat hstock
        rw [hrun]
        generalize hw2 : ({ w with doc := { w.doc with
            items := modifyFirst (fun item => item._id == itemId)
              (fun item => { item with quantity := q }) w.doc.items } } : World) = w2
        have hitems : w2.doc.items = modifyFirst (fun item => item._id == itemId)
            (fun item => { item with quantity := q }) w.doc.items := by
          rw [← hw2]
        have hstored : w2.stored = w.stored := by rw [← hw2]
        by_cases hv : validate w2.doc = true
        · have hall : ∀ x ∈ w2.doc.items, 1 ≤ x.quantity := by
            simpa [validate] using hv
          have hct := calculateTotals_of_valid now w2 hall
          rw [hct]
          refine ⟨by simpa using hsome, ?_, ⟨rfl, rfl, rfl⟩, ?_, ?_⟩
          · intro item2 h2
            simp only [Option.some.injEq] at h2
            subst h2
            refine ⟨by simp [hcat], fun product2 hp => ?_⟩
            rw [hcat] at hp
            simp only [Option.some.injEq] at hp
            subst hp
            refine ⟨by simp [hstock], fun _ => ⟨?_, Or.inl rfl, fun _ _ => rfl⟩⟩
            exact ⟨fun _ => hall, fun _ => rfl⟩
          · intro h
            rcases h with h | h | h <;> simp at h
          · intro e he
            simp at he
        · have hvf : validate (recompute now w2.doc) = false := by
            rw [validate_recompute]; simpa using hv
          have hct : calculateTotals now w2 =
              (.error .validationFailed, { w2 with doc := recompute now w2.doc }) := by
            simp [calculateTotals, save, hvf]
          rw [hct]
          have hnall : ¬ ∀ x ∈ w2.doc.items, 1 ≤ x.quantity := by
            intro hall
            apply hv
            simpa [validate] using hall
          refine ⟨by simpa using hsome, ?_, ⟨rfl, rfl, rfl⟩, ?_, ?_⟩
          · intro item2 h2
            simp only [Option.some.injEq] at h2
            subst h2
            refine ⟨by simp [hcat], fun product2 hp => ?_⟩
            rw [hcat] at hp
            simp only [Option.some.injEq] at hp
            subst hp
            refine ⟨by simp [hstock], fun _ => ⟨?_, Or.inr rfl, fun hq hvalid => ?_⟩⟩
            · constructor
              · intro h; simp at h
              · intro h; exact absurd h hnall
            · exfalso
              apply hnall
              rw [hitems]
              exact modifyFirst_forall _ _ (fun x => 1 ≤ x.quantity) w.doc.items hvalid
                (fun x _ => hq)
          · intro h
            rcases h with h | h | h <;> simp at h
          · intro e _
            exact hstored

/-- Witness for the amended C10: line `"i1"` exists, its product resolves with
stock 5, the request of 3 units is within stock and at least 1, and the cart
was valid; the update succeeds. -/
theorem updateQuantity_failures_witness :
    oneLineWorld.doc.items.find? (fun item => item._id == "i1") = some lineM ∧
      demoCatalog lineM.product = some { price := 10, stock := 5 } ∧
      ¬ ((5 : ℚ) < 3) ∧ (1 : ℚ) ≤ 3 ∧ (∀ x ∈ oneLineWorld.doc.items, 1 ≤ x.quantity) ∧
      (updateQuantity demoCatalog "i1" 3 2 oneLineWorld).1 =
        .ok (updateQuantity demoCatalog "i1" 3 2 oneLineWorld).2.doc :=
  have hfind : oneLineWorld.doc.items.find? (fun item => item._id == "i1") = some lineM := by
    simp [oneLineWorld, oneLineCart, lineM]
  have hcat : demoCatalog lineM.product = some { price := 10, stock := 5 } := by
    simp [demoCatalog, lineM]
  have hs : ¬ (({ price := 10, stock := 5 } : Product).stock < 3) := by norm_num
  have hq : (1 : ℚ) ≤ 3 := by norm_num
  have hvalid : ∀ x ∈ oneLineWorld.doc.items, 1 ≤ x.quantity := by
    simp [oneLineWorld, oneLineCart, lineM]
  ⟨hfind, hcat, hs, hq, hvalid,
    (((updateQuantity_failures demoCatalog "i1" 3 2 oneLineWorld).2.1 lineM hfind).2
      { price := 10, stock := 5 } hcat).2 hs |>.2.2 hq hvalid⟩

/-! ## `updateQuantity`, `removeItem`, `clearCart`: effects -/

theorem filter_id_ne_eq_self (itemId : String) (l : List Item) (h : ∀ x ∈ l, x._id ≠ itemId) :
    l.filter (fun item => item._id != itemId) = l := by
  rw [List.filter_eq_self]
  intro x hx
  simpa using h x hx

theorem recompute_of_consistent (now : Nat) (c : Cart)
    (htotal : c.total = subtotalOf c.items)
    (hgrand : c.grandTotal = c.total + c.shipping.cost + c.tax - c.discount.amount.getD 0) :
    recompute now c = { c with lastUpdated := now } := by
  simp only [recompute, itemsTotal_eq_subtotalOf, ← htotal, ← hgrand]

/-- C11. When the cart has a line item of id `itemId`, `it` being the first
one, a successful `updateQuantity(itemId, q)` returns the same line items in
the same order and number, except that `it` has quantity exactly `q` (its id,
product, variant and price as before); the returned cart is the one in memory
and the one stored. -/
theorem updateQuantity_sets_quantity (catalog : String → Option Product) (itemId : String)
    (q : ℚ) (now : Nat) (w : World) (c : Cart) (pre post : List Item) (it : Item)
    (hitems : w.doc.items = pre ++ it :: post) (hpre : ∀ x ∈ pre, x._id ≠ itemId)
    (hit : it._id = itemId) (hok : (updateQuantity catalog itemId q now w).1 = .ok c) :
    c.items = pre ++ { _id := it._id, product := it.product, variant := it.variant,
                       quantity := q, price := it.price } :: post ∧
      c.items.length = w.doc.items.length ∧
      (updateQuantity catalog itemId q now w).2.doc = c ∧
      (updateQuantity catalog itemId q now w).2.stored = some c := by
  have hp : ∀ x ∈ pre, (fun item : Item => item._id == itemId) x = false := by
    intro x hx
    simpa using hpre x hx
  have hi : (fun item : Item => item._id == itemId) it = true := by simpa using hit
  have hfind : w.doc.items.find? (fun item => item._id == itemId) = some it := by
    rw [hitems]; exact find?_first _ pre post it hp hi
  cases hcat : catalog it.product with
  | none => simp [updateQuantity, hfind, hcat] at hok
  | some product =>
    by_cases hstock : product.stock < q
    · simp [updateQuantity, hfind, hcat, hstock] at hok
    · rw [updateQuantity_run catalog itemId q now w it product hfind hcat hstock] at hok ⊢
      obtain ⟨hc, hw⟩ := calculateTotals_ok _ _ _ hok
      have hitems2 : c.items = pre ++ { it with quantity := q } :: post := by
        rw [hc]
        show modifyFirst _ _ w.doc.items = _
        rw [hitems, modifyFirst_first _ _ pre post it hp hi]
      refine ⟨hitems2, ?_, ?_, ?_⟩
      · rw [hitems2, hitems]; simp
      · rw [hw, hc]
      · rw [hw, hc]

/-- Witness for C11: on the cart whose only line `"i1"` has quantity 2, a
successful update to 3 leaves that one line with quantity 3. -/
theorem updateQuantity_sets_quantity_witness :
    (updateQuantity demoCatalog "i1" 3 2 oneLineWorld).1 =
        .ok { oneLineCart with
              items := [{ lineM with quantity := 3 }], total := 30, grandTotal := 30,
              lastUpdated := 2 } ∧
      ({ oneLineCart with
          items := [{ lineM with quantity := 3 }], total := 30, grandTotal := 30,
          lastUpdated := 2 } : Cart).items =
        [] ++ { _id := lineM._id, product := lineM.product, variant := lineM.variant,
                quantity := 3, price := lineM.price } :: [] :=
  have e : ¬ ((5 : ℚ) < 3) := by norm_num
  have e1 : (1 : ℚ) ≤ 3 := by norm_num
  have e2 : (10 : ℚ) * 3 = 30 := by norm_num
  have hok : (updateQuantity demoCatalog "i1" 3 2 oneLineWorld).1 =
      .ok { oneLineCart with
            items := [{ lineM with quantity := 3 }], total := 30, grandTotal := 30,
            lastUpdated := 2 } := by
    simp [updateQuantity, demoCatalog, oneLineWorld, oneLineCart, lineM, emptyCart,
      calculateTotals, save, validate, recompute, itemsTotal, modifyFirst, e, e1, e2]
  ⟨hok, (updateQuantity_sets_quantity demoCatalog "i1" 3 2 oneLineWorld _ [] [] lineM rfl
    (by simp) rfl hok).1⟩

/-- C12. After `removeItem(itemId)` the cart's items are exactly the old line
items whose id differs from `itemId`, in their original relative order (a
sublist of the old items, keeping every such item as often as it occurred), and
no line item has id `itemId`; the call resolves with that cart exactly when the
cart passes the schema validation of `save`. -/
theorem removeItem_items (itemId : String) (now : Nat) (w : World) :
    (removeItem itemId now w).2.doc.items =
        w.doc.items.filter (fun item => decide (item._id ≠ itemId)) ∧
      List.Sublist (removeItem itemId now w).2.doc.items w.doc.items ∧
      (∀ x, x ∈ (removeItem itemId now w).2.doc.items ↔ x ∈ w.doc.items ∧ x._id ≠ itemId) ∧
      (∀ x, x._id ≠ itemId →
        List.count x (removeItem itemId now w).2.doc.items = List.count x w.doc.items) ∧
      (∀ x ∈ (removeItem itemId now w).2.doc.items, x._id ≠ itemId) ∧
      (removeItem itemId now w).1 =
        if validate (removeItem itemId now w).2.doc then
          Except.ok (removeItem itemId now w).2.doc
        else Except.error CartError.validationFailed := by
  have hdoc : (removeItem itemId now w).2.doc.items =
      w.doc.items.filter (fun item => item._id != itemId) := by
    simp only [removeItem, calculateTotals_doc]; rfl
  have hval : validate (removeItem itemId now w).2.doc =
      validate { w.doc with items := w.doc.items.filter (fun item => item._id != itemId) } := by
    simp only [removeItem, calculateTotals_doc, validate_recompute]
  refine ⟨?_, ?_, ?_, ?_, ?_, ?_⟩
  · rw [hdoc]
    congr 1
    funext item
    by_cases h : item._id = itemId <;> simp [bne, h]
  · rw [hdoc]; exact List.filter_sublist _
  · intro x
    rw [hdoc]
    simp [List.mem_filter]
  · intro x hx
    rw [hdoc]
    rw [List.count_filter]
    simpa using hx
  · intro x hx
    rw [hdoc] at hx
    simpa using (List.mem_filter.1 hx).2
  · rw [hval]
    simp only [removeItem, calculateTotals_doc]
    rw [calculateTotals_result]

/-- Witness for C12: line `"i1"` has an id other than `"zz"`, so removing
`"zz"` from the one-line cart keeps it as often as it occurred. -/
theorem removeItem_items_witness :
    lineM._id ≠ "zz" ∧
      List.count lineM (removeItem "zz" 9 oneLineWorld).2.doc.items =
        List.count lineM oneLineWorld.doc.items :=
  have h : lineM._id ≠ "zz" := by simp [lineM]
  ⟨h, (removeItem_items "zz" 9 oneLineWorld).2.2.2.1 lineM h⟩

/-- C13. Removal no-op: when the cart's totals agree with its items and no
line item has id `itemId`, `removeItem(itemId)` leaves items, discount,
shipping, tax, total and grand total (indeed every field but `lastUpdated`) as
they were, and on a cart that satisfies the schema (every quantity at least 1)
it raises no error: it resolves with that cart and stores it. -/
theorem removeItem_absent (itemId : String) (now : Nat) (w : World)
    (htotal : w.doc.total = (w.doc.items.map (fun item => item.price * item.quantity)).sum)
    (hgrand : w.doc.grandTotal =
      w.doc.total + w.doc.shipping.cost + w.doc.tax - w.doc.discount.amount.getD 0)
    (habsent : ∀ x ∈ w.doc.items, x._id ≠ itemId) :
    (removeItem itemId now w).2.doc.items = w.doc.items ∧
      (removeItem itemId now w).2.doc.discount = w.doc.discount ∧
      (removeItem itemId now w).2.doc.shipping = w.doc.shipping ∧
      (removeItem itemId now w).2.doc.tax = w.doc.tax ∧
      (removeItem itemId now w).2.doc.total = w.doc.total ∧
      (removeItem itemId now w).2.doc.grandTotal = w.doc.grandTotal ∧
      (removeItem itemId now w).2.doc = { w.doc with lastUpdated := now } ∧
      ((∀ x ∈ w.doc.items, 1 ≤ x.quantity) →
        (removeItem itemId now w).1 = .ok { w.doc with lastUpdated := now } ∧
          (removeItem itemId now w).2.stored = some { w.doc with lastUpdated := now }) := by
  have hsame : ({ w with doc := { w.doc with
      items := w.doc.items.filter (fun item => item._id != itemId) } } : World) = w := by
    rw [filter_id_ne_eq_self itemId w.doc.items habsent]
  have hrun : removeItem itemId now w = calculateTotals now w := by
    simp only [removeItem, hsame]
  have hrec : recompute now w.doc = { w.doc with lastUpdated := now } :=
    recompute_of_consistent now w.doc htotal hgrand
  have hdoc : (removeItem itemId now w).2.doc = { w.doc with lastUpdated := now } := by
    rw [hrun, calculateTotals_doc, hrec]
  refine ⟨?_, ?_, ?_, ?_, ?_, ?_, hdoc, ?_⟩
  · rw [hdoc]
  · rw [hdoc]
  · rw [hdoc]
  · rw [hdoc]
  · rw [hdoc]
  · rw [hdoc]
  · intro hvalid
    rw [hrun, calculateTotals_of_valid now w hvalid, hrec]
    exact ⟨rfl, rfl⟩

/-- Witness for C13: the one-line cart has consistent totals, no line `"zz"`
and a valid quantity; removing `"zz"` resolves with the same cart, stamped with
the new time. -/
theorem removeItem_absent_witness :
    (∀ x ∈ oneLineWorld.doc.items, x._id ≠ "zz") ∧
      (∀ x ∈ oneLineWorld.doc.items, 1 ≤ x.quantity) ∧
      (removeItem "zz" 9 oneLineWorld).2.doc.items = oneLineWorld.doc.items ∧
      (removeItem "zz" 9 oneLineWorld).2.doc.grandTotal = oneLineWorld.doc.grandTotal ∧
      (removeItem "zz" 9 oneLineWorld).1 = .ok { oneLineWorld.doc with lastUpdated := 9 } :=
  have habsent : ∀ x ∈ oneLineWorld.doc.items, x._id ≠ "zz" := by
    simp [oneLineWorld, oneLineCart, lineM]
  have hvalid : ∀ x ∈ oneLineWorld.doc.items, 1 ≤ x.quantity := by
    simp [oneLineWorld, oneLineCart, lineM]
  have htotal : oneLineWorld.doc.total =
      (oneLineWorld.doc.items.map (fun item => item.price * item.quantity)).sum := by
    simp [oneLineWorld, oneLineCart, lineM]; norm_num
  have hgrand : oneLineWorld.doc.grandTotal =
      oneLineWorld.doc.total + oneLineWorld.doc.shipping.cost + oneLineWorld.doc.tax -
        oneLineWorld.doc.discount.amount.getD 0 := by
    simp [oneLineWorld, oneLineCart, emptyCart]
  have h := removeItem_absent "zz" 9 oneLineWorld htotal hgrand habsent
  ⟨habsent, hvalid, h.1, h.2.2.2.2.2.1, (h.2.2.2.2.2.2.2 hvalid).1⟩

/-- C14. Clear resets fully: `clearCart` always resolves, with the cart that is
then in memory and in the store, and in that cart items = [], total = 0,
grandTotal = 0, discount = {code: none, amount: 0}, shipping = {method: none,
cost: 0} and tax = 0, the owner being the one the cart had. -/
theorem clearCart_resets (now : Nat) (w : World) :
    (clearCart now w).1 = .ok (clearCart now w).2.doc ∧
      (clearCart now w).2.stored = some (clearCart now w).2.doc ∧
      (clearCart now w).2.doc.items = [] ∧
      (clearCart now w).2.doc.total = 0 ∧
      (clearCart now w).2.doc.grandTotal = 0 ∧
      (clearCart now w).2.doc.discount = { code := none, amount := some 0 } ∧
      (clearCart now w).2.doc.shipping = { method := none, cost := 0 } ∧
      (clearCart now w).2.doc.tax = 0 ∧
      (clearCart now w).2.doc.user = w.doc.user := by
  simp [clearCart, save, validate]

/-! ## `applyDiscount`, `updateShipping`, idempotence -/

theorem applyDiscount_doc (code : Option String) (now : Nat) (w : World) :
    (applyDiscount code now w).2.doc =
      recompute now { w.doc with
        discount := { code := code, amount := some (w.doc.total * (1 / 10)) } } := by
  simp only [applyDiscount, calculateTotals_doc]

theorem updateShipping_doc (method : Option String) (cost : ℚ) (now : Nat) (w : World) :
    (updateShipping method cost now w).2.doc =
      recompute now { w.doc with shipping := { method := method, cost := cost } } := by
  simp only [updateShipping, calculateTotals_doc]

theorem applyDiscount_result (code : Option String) (now : Nat) (w : World) :
    (applyDiscount code now w).1 =
      if validate w.doc then Except.ok (applyDiscount code now w).2.doc
      else Except.error CartError.validationFailed := by
  rw [applyDiscount_doc]
  simp only [applyDiscount]
  rw [calculateTotals_result]
  rfl

theorem updateShipping_result (method : Option String) (cost : ℚ) (now : Nat) (w : World) :
    (updateShipping method cost now w).1 =
      if validate w.doc then Except.ok (updateShipping method cost now w).2.doc
      else Except.error CartError.validationFailed := by
  rw [updateShipping_doc]
  simp only [updateShipping]
  rw [calculateTotals_result]
  rfl

/-- The effect of `applyDiscount` in the rational model: the discount holds the
given code and, as amount, the exact tenth of the cart's `total` field; items,
shipping and tax are kept; total is recomputed as the sum over the items and
grandTotal as total + shipping.cost + tax - amount; the call resolves with that
cart exactly when the cart passes the schema validation of `save`.  The amount
the code stores is the double `cart.total * 0.1`, which is this tenth up to
rounding only. -/
theorem applyDiscount_effect (code : Option String) (now : Nat) (w : World) :
    (applyDiscount code now w).2.doc.discount =
        { code := code, amount := some (w.doc.total / 10) } ∧
      (∀ amount, (applyDiscount code now w).2.doc.discount.amount = some amount →
        10 * amount = w.doc.total) ∧
      (w.doc.total = (w.doc.items.map (fun item => item.price * item.quantity)).sum →
        (applyDiscount code now w).2.doc.discount.amount =
          some ((w.doc.items.map (fun item => item.price * item.quantity)).sum / 10)) ∧
      (applyDiscount code now w).2.doc.items = w.doc.items ∧
      (applyDiscount code now w).2.doc.shipping = w.doc.shipping ∧
      (applyDiscount code now w).2.doc.tax = w.doc.tax ∧
      (applyDiscount code now w).2.doc.total =
        (w.doc.items.map (fun item => item.price * item.quantity)).sum ∧
      (applyDiscount code now w).2.doc.grandTotal =
        (applyDiscount code now w).2.doc.total + w.doc.shipping.cost + w.doc.tax -
          w.doc.total / 10 ∧
      (applyDiscount code now w).1 =
        if validate w.doc then Except.ok (applyDiscount code now w).2.doc
        else Except.error CartError.validationFailed := by
  have hdisc : (applyDiscount code now w).2.doc.discount =
      { code := code, amount := some (w.doc.total / 10) } := by
    rw [applyDiscount_doc]
    simp [recompute, div_eq_mul_inv]
  refine ⟨hdisc, ?_, ?_, ?_, ?_, ?_, ?_, ?_, ?_⟩
  · intro amount h
    rw [hdisc] at h
    simp only [Option.some.injEq] at h
    rw [← h]
    ring
  · intro h
    rw [hdisc, ← h]
  · rw [applyDiscount_doc]; rfl
  · rw [applyDiscount_doc]; rfl
  · rw [applyDiscount_doc]; rfl
  · rw [applyDiscount_doc]
    exact itemsTotal_eq_subtotalOf w.doc.items
  · rw [applyDiscount_doc]
    simp [recompute, div_eq_mul_inv]
  · exact applyDiscount_result code now w

/-- C16. `applyDiscount` does not look at the code: for any two codes the two
resulting carts have the same discount amount, total, grand total and items
(and the same owner, shipping, tax and time stamp), each stores the code it was
given, and the two calls resolve or are rejected alike. -/
theorem applyDiscount_code_irrelevant (c1 c2 : Option String) (now : Nat) (w : World) :
    (applyDiscount c1 now w).2.doc.discount.amount =
        (applyDiscount c2 now w).2.doc.discount.amount ∧
      (applyDiscount c1 now w).2.doc.total = (applyDiscount c2 now w).2.doc.total ∧
      (applyDiscount c1 now w).2.doc.grandTotal = (applyDiscount c2 now w).2.doc.grandTotal ∧
      (applyDiscount c1 now w).2.doc.items = (applyDiscount c2 now w).2.doc.items ∧
      (applyDiscount c1 now w).2.doc.discount.code = c1 ∧
      (applyDiscount c2 now w).2.doc.discount.code = c2 ∧
      (applyDiscount c1 now w).2.doc =
        { (applyDiscount c2 now w).2.doc with
          discount := { code := c1,
                        amount := (applyDiscount c2 now w).2.doc.discount.amount } } ∧
      ((applyDiscount c1 now w).1 = .ok (applyDiscount c1 now w).2.doc ↔
        (applyDiscount c2 now w).1 = .ok (applyDiscount c2 now w).2.doc) := by
  refine ⟨?_, ?_, ?_, ?_, ?_, ?_, ?_, ?_⟩
  · simp only [applyDiscount_doc]; rfl
  · simp only [applyDiscount_doc]; rfl
  · simp only [applyDiscount_doc]; rfl
  · simp only [applyDiscount_doc]; rfl
  · simp only [applyDiscount_doc]; rfl
  · simp only [applyDiscount_doc]; rfl
  · simp only [applyDiscount_doc]; rfl
  · rw [applyDiscount_result c1 now w, applyDiscount_result c2 now w]
    by_cases hv : validate w.doc = true <;> simp [hv]

/-- C17. For a loaded cart, a method and a cost (non-negative or not),
`updateShipping` stores shipping = {method, cost} as given, keeps items,
discount and tax, and recomputes total as the sum over the items and
grandTotal = total + cost + tax - discount.amount (a missing amount counting as
0); the call resolves with that cart exactly when the cart passes the schema
validation of `save`. -/
theorem updateShipping_stores (method : Option String) (cost : ℚ) (now : Nat) (w : World) :
    (updateShipping method cost now w).2.doc.shipping = { method := method, cost := cost } ∧
      (updateShipping method cost now w).2.doc.items = w.doc.items ∧
      (updateShipping method cost now w).2.doc.discount = w.doc.discount ∧
      (updateShipping method cost now w).2.doc.tax = w.doc.tax ∧
      (updateShipping method cost now w).2.doc.total =
        (w.doc.items.map (fun item => item.price * item.quantity)).sum ∧
      (updateShipping method cost now w).2.doc.grandTotal =
        (updateShipping method cost now w).2.doc.total + cost + w.doc.tax -
          (match w.doc.discount.amount with
            | some amount => amount
            | none => 0) ∧
      (updateShipping method cost now w).1 =
        if validate w.doc then Except.ok (updateShipping method cost now w).2.doc
        else Except.error CartError.validationFailed := by
  refine ⟨?_, ?_, ?_, ?_, ?_, ?_, updateShipping_result method cost now w⟩
  · rw [updateShipping_doc]; rfl
  · rw [updateShipping_doc]; rfl
  · rw [updateShipping_doc]; rfl
  · rw [updateShipping_doc]; rfl
  · rw [updateShipping_doc]
    exact itemsTotal_eq_subtotalOf w.doc.items
  · rw [updateShipping_doc]
    cases h : w.doc.discount.amount <;> simp [recompute, h]

/-- C19. Idempotent recompute: a second `calculateTotals` right after a first
one leaves total and grand total (and items, discount, shipping and tax) as the
first call left them, and it resolves or is rejected as the first call did. -/
theorem calculateTotals_idempotent (now1 now2 : Nat) (w : World) :
    (calculateTotals now2 (calculateTotals now1 w).2).2.doc.total =
        (calculateTotals now1 w).2.doc.total ∧
      (calculateTotals now2 (calculateTotals now1 w).2).2.doc.grandTotal =
        (calculateTotals now1 w).2.doc.grandTotal ∧
      (calculateTotals now2 (calculateTotals now1 w).2).2.doc =
        { (calculateTotals now1 w).2.doc with lastUpdated := now2 } ∧
      ((calculateTotals now2 (calculateTotals now1 w).2).1 =
          .ok (calculateTotals now2 (calculateTotals now1 w).2).2.doc ↔
        (calculateTotals now1 w).1 = .ok (calculateTotals now1 w).2.doc) := by
  have hdoc : (calculateTotals now2 (calculateTotals now1 w).2).2.doc =
      { (calculateTotals now1 w).2.doc with lastUpdated := now2 } := by
    rw [calculateTotals_doc, calculateTotals_doc]
    exact recompute_of_consistent now2 (recompute now1 w.doc)
      (recompute_consistent now1 w.doc).1 (recompute_consistent now1 w.doc).2
  refine ⟨?_, ?_, hdoc, ?_⟩
  · rw [hdoc]
  · rw [hdoc]
  · simp only [calculateTotals_result, calculateTotals_doc, validate_recompute]
    by_cases hv : validate w.doc = true <;> simp [hv]

/-! ## `getCart`: get or create -/

theorem findOne_first (owner : String) (pre post : Store) (cart : Cart)
    (hpre : ∀ c ∈ pre, c.user ≠ owner) (hcart : cart.user = owner) :
    findOne owner (pre ++ cart :: post) = some cart := by
  induction pre with
  | nil => simp [findOne, hcart]
  | cons x xs ih =>
    have hx : x.user ≠ owner := hpre x (by simp)
    have hxs : ∀ c ∈ xs, c.user ≠ owner := fun c hc => hpre c (by simp [hc])
    have ih2 := ih hxs
    simp only [findOne] at ih2 ⊢
    simp only [List.cons_append, List.find?_cons]
    have hb : (x.user == owner) = false := by simpa using hx
    rw [hb]
    exact ih2

theorem findOne_eq_none_iff (owner : String) (store : Store) :
    findOne owner store = none ↔ ∀ c ∈ store, c.user ≠ owner := by
  simp [findOne, List.find?_eq_none]

theorem findOne_some_user (owner : String) (store : Store) (cart : Cart)
    (h : findOne owner store = some cart) : cart.user = owner ∧ cart ∈ store := by
  unfold findOne at h
  have h1 := List.find?_some h
  have h2 := List.mem_of_find?_eq_some h
  exact ⟨by simpa using h1, h2⟩

theorem getCart_of_absent (owner : String) (now : Nat) (store : Store)
    (h : ∀ c ∈ store, c.user ≠ owner) :
    getCart owner now store = create owner now store := by
  simp only [getCart, (findOne_eq_none_iff owner store).2 h]

/-- C18. Get or create: when the store holds a cart of the owner, `getCart`
returns the first such cart and leaves the store as it is; when it holds none,
exactly one cart is added, owned by the owner, with no items and total, grand
total, discount amount, shipping cost and tax all 0, and that cart is returned.
In both cases a second call returns the same cart and leaves the store as the
first call left it. -/
theorem getCart_get_or_create (owner : String) (now now2 : Nat) (store : Store) :
    (∀ (pre post : Store) (cart : Cart), store = pre ++ cart :: post →
        (∀ c ∈ pre, c.user ≠ owner) → cart.user = owner →
        getCart owner now store = (cart, store)) ∧
      ((∀ c ∈ store, c.user ≠ owner) →
        (getCart owner now store).2 = store ++ [(getCart owner now store).1] ∧
          ((getCart owner now store).2.filter (fun c => decide (c.user = owner))).length = 1 ∧
          (getCart owner now store).1.user = owner ∧
          (getCart owner now store).1.items = [] ∧
          (getCart owner now store).1.total = 0 ∧
          (getCart owner now store).1.grandTotal = 0 ∧
          (getCart owner now store).1.discount.amount = some 0 ∧
          (getCart owner now store).1.shipping.cost = 0 ∧
          (getCart owner now store).1.tax = 0) ∧
      getCart owner now2 (getCart owner now store).2 =
        ((getCart owner now store).1, (getCart owner now store).2) := by
  refine ⟨?_, ?_, ?_⟩
  · intro pre post cart hstore hpre hcart
    simp only [getCart, hstore, findOne_first owner pre post cart hpre hcart]
  · intro habsent
    rw [getCart_of_absent owner now store habsent]
    refine ⟨rfl, ?_, rfl, rfl, rfl, rfl, rfl, rfl, rfl⟩
    have hf : store.filter (fun c => decide (c.user = owner)) = [] := by
      rw [List.filter_eq_nil_iff]
      intro c hc
      simpa using habsent c hc
    simp [create, List.filter_append, hf]
  · cases hfind : findOne owner store with
    | some cart =>
      have h1 : getCart owner now store = (cart, store) := by simp only [getCart, hfind]
      have h2 : getCart owner now2 store = (cart, store) := by simp only [getCart, hfind]
      rw [h1, h2]
    | none =>
      have habsent := (findOne_eq_none_iff owner store).1 hfind
      rw [getCart_of_absent owner now store habsent]
      have hf := findOne_first owner store [] (create owner now store).1 habsent rfl
      have hs : (create owner now store).2 = store ++ (create owner now store).1 :: [] := rfl
      simp only [getCart]
      rw [hs, hf]

/-- Witness for C18: an empty store holds no cart of `"u"`; the call adds one
empty cart and returns it. -/
theorem getCart_get_or_create_witness :
    (∀ c ∈ ([] : Store), c.user ≠ "u") ∧
      (getCart "u" 5 []).2 = [] ++ [(getCart "u" 5 []).1] ∧
      (getCart "u" 5 []).1.items = [] ∧
      (getCart "u" 5 []).1.grandTotal = 0 :=
  have h : ∀ c ∈ ([] : Store), c.user ≠ "u" := by simp
  have t := (getCart_get_or_create "u" 5 6 []).2.1 h
  ⟨h, t.1, t.2.2.2.1, t.2.2.2.2.2.1⟩

end CartModel

namespace CategoryTree

/-! ## The depth-1 tree -/

theorem rootNodes_foldl (categories : List Category) (acc : List CategoryNode) :
    categories.foldl
        (fun tree category =>
          if category.parent.isNone then tree ++ [{ category := category, subcategories := [] }]
          else tree)
        acc =
      acc ++ (categories.filter (fun category => category.parent = none)).map
        (fun root => { category := root, subcategories := [] }) := by
  induction categories generalizing acc with
  | nil => simp
  | cons c cs ih =>
    simp only [List.foldl_cons]
    rw [ih]
    cases hp : c.parent with
    | none => simp [hp, List.filter_cons]
    | some p => simp [hp, List.filter_cons]

theorem rootNodes_eq (categories : List Category) :
    rootNodes categories =
      (categories.filter (fun category => category.parent = none)).map
        (fun root => { category := root, subcategories := [] }) := by
  simpa [rootNodes] using rootNodes_foldl categories []

theorem pushChild_eq_map (parentId : String) (category : Category) (tree : List CategoryNode)
    (hnodup : (tree.map (fun node => node.category._id)).Nodup) :
    pushChild parentId category tree = tree.map (pushAll parentId category) := by
  induction tree with
  | nil => rfl
  | cons node rest ih =>
    simp only [List.map_cons, List.nodup_cons, List.mem_map, not_exists, not_and] at hnodup
    obtain ⟨hnot, hrest⟩ := hnodup
    by_cases hid : node.category._id = parentId
    · have hrestid : ∀ n ∈ rest, pushAll parentId category n = n := by
        intro n hn
        have hne : n.category._id ≠ parentId := fun h => hnot n hn (h.trans hid.symm)
        simp [pushAll, hne]
      have hmap : rest.map (pushAll parentId category) = rest := by
        conv_rhs => rw [← List.map_id rest]
        exact List.map_congr_left hrestid
      simp [pushChild, pushAll, hid, hmap]
    · simp [pushChild, pushAll, hid, ih hrest]

theorem pushAll_id (parentId : String) (category : Category) (node : CategoryNode) :
    (pushAll parentId category node).category = node.category := by
  unfold pushAll; split <;> rfl

theorem map_pushAll_ids (parentId : String) (category : Category) (tree : List CategoryNode) :
    (tree.map (pushAll parentId category)).map (fun node => node.category._id) =
      tree.map (fun node => node.category._id) := by
  simp [List.map_map, Function.comp_def, pushAll_id]

theorem attachChildren_eq (categories : List Category) (tree : List CategoryNode)
    (hnodup : (tree.map (fun node => node.category._id)).Nodup) :
    attachChildren categories tree =
      tree.map (fun node =>
        { node with
          subcategories := node.subcategories ++ childrenOf node.category._id categories }) := by
  induction categories generalizing tree with
  | nil =>
    simp only [attachChildren, List.foldl_nil, childrenOf, List.filter_nil, List.append_nil]
    exact (List.map_id tree).symm
  | cons c cs ih =>
    have hstep : attachChildren (c :: cs) tree =
        attachChildren cs
          (match c.parent with
            | none => tree
            | some parent => pushChild parent._id c tree) := by
      simp only [attachChildren, List.foldl_cons]
    rw [hstep]
    cases hp : c.parent with
    | none =>
      simp only
      rw [ih tree hnodup]
      apply List.map_congr_left
      intro node _
      simp [childrenOf, List.filter_cons, hp]
    | some parent =>
      simp only
      rw [pushChild_eq_map parent._id c tree hnodup]
      rw [ih _ (by rw [map_pushAll_ids]; exact hnodup)]
      rw [List.map_map]
      apply List.map_congr_left
      intro node _
      by_cases hid : node.category._id = parent._id
      · have hid2 : parent._id = node.category._id := hid.symm
        simp [pushAll, hid, childrenOf, List.filter_cons, hp]
      · have hid2 : ¬ parent._id = node.category._id := fun h => hid h.symm
        simp [pushAll, hid, hid2, childrenOf, List.filter_cons, hp]

/-- C20. Tree depth-1 assembly: for a flat list of categories with distinct
ids, the tree of `getCategories` is the list, in input order, of the categories
without parent, each paired with the input categories, in input order and as
raw records, whose parent id is that root's id.  Roots A (id 1), B (id 2) and
children C (parent 1), D (parent 2), E (parent 3) give A with [C] and B with
[D]. -/
theorem categoryTree_depth_one :
    (∀ categories : List Category,
        (categories.map (fun category => category._id)).Nodup →
        categoryTree categories =
          (categories.filter (fun category => category.parent = none)).map
            (fun root =>
              { category := root
                subcategories := categories.filter
                  (fun category =>
                    category.parent.map (fun parent => parent._id) = some root._id) })) ∧
      categoryTree sampleCategories =
        [{ category := sampleCategory "1" "A" none
           subcategories := [sampleCategory "3c" "C" (some "1")] },
         { category := sampleCategory "2" "B" none
           subcategories := [sampleCategory "4d" "D" (some "2")] }] := by
  have general : ∀ categories : List Category,
      (categories.map (fun category => category._id)).Nodup →
      categoryTree categories =
        (categories.filter (fun category => category.parent = none)).map
          (fun root =>
            { category := root
              subcategories := categories.filter
                (fun category =>
                  category.parent.map (fun parent => parent._id) = some root._id) }) := by
    intro categories hdistinct
    have hroots : ((rootNodes categories).map (fun node => node.category._id)).Nodup := by
      rw [rootNodes_eq, List.map_map]
      have hsub : List.Sublist
          ((categories.filter (fun category => category.parent = none)).map
            (fun category => category._id))
          (categories.map (fun category => category._id)) :=
        (List.filter_sublist _).map _
      exact hdistinct.sublist hsub
    unfold categoryTree
    rw [attachChildren_eq categories (rootNodes categories) hroots, rootNodes_eq, List.map_map]
    apply List.map_congr_left
    intro root _
    simp [childrenOf]
  refine ⟨general, ?_⟩
  rw [general sampleCategories (by simp [sampleCategories, sampleCategory])]
  simp [sampleCategories, sampleCategory, List.filter_cons]

/-- Witness for C20: two categories with distinct ids, a root and its child. -/
theorem categoryTree_depth_one_witness :
    ([sampleCategory "1" "A" none, sampleCategory "2" "C" (some "1")].map
        (fun category => category._id)).Nodup ∧
      categoryTree [sampleCategory "1" "A" none, sampleCategory "2" "C" (some "1")] =
        ([sampleCategory "1" "A" none, sampleCategory "2" "C" (some "1")].filter
            (fun category => category.parent = none)).map
          (fun root =>
            { category := root
              subcategories :=
                [sampleCategory "1" "A" none, sampleCategory "2" "C" (some "1")].filter
                  (fun category =>
                    category.parent.map (fun parent => parent._id) = some root._id) }) :=
  have hd : ([sampleCategory "1" "A" none, sampleCategory "2" "C" (some "1")].map
      (fun category => category._id)).Nodup := by
    simp [sampleCategory]
  ⟨hd, categoryTree_depth_one.1 _ hd⟩

end CategoryTree

namespace CartModel

/-! ## Zero quantity and negative grand totals -/

/-- C24, as stated, fails: the one-line cart holds line `"i1"`, whose product
resolves; `updateQuantity("i1", 0)` is rejected by the schema validation of
`save`; the stored cart still holds the line with its old quantity 2, and the
document in memory still holds a line `"i1"`, now with quantity 0. -/
theorem updateQuantity_zero_counterexample :
    demoCatalog lineM.product = some { price := 10, stock := 5 } ∧
      (updateQuantity demoCatalog "i1" 0 2 oneLineWorld).1 = .error .validationFailed ∧
      (updateQuantity demoCatalog "i1" 0 2 oneLineWorld).2.stored =
        some { emptyCart "u" with items := [lineM], total := 20, grandTotal := 20 } ∧
      (updateQuantity demoCatalog "i1" 0 2 oneLineWorld).2.doc.items =
        [{ lineM with quantity := 0 }] := by
  have e : ¬ ((5 : ℚ) < 0) := by norm_num
  have e1 : ¬ ((1 : ℚ) ≤ 0) := by norm_num
  refine ⟨?_, ?_, ?_, ?_⟩
  · simp [demoCatalog, lineM]
  · simp [updateQuantity, demoCatalog, oneLineWorld, oneLineCart, lineM, emptyCart,
      calculateTotals, save, validate, recompute, modifyFirst, e, e1]
  · simp [updateQuantity, demoCatalog, oneLineWorld, oneLineCart, lineM, emptyCart,
      calculateTotals, save, validate, recompute, modifyFirst, e, e1]
  · simp [updateQuantity, demoCatalog, oneLineWorld, oneLineCart, lineM, emptyCart,
      calculateTotals, save, validate, recompute, modifyFirst, e, e1]

/-- C24, amended: `updateQuantity(itemId, 0)` removes nothing.  For a cart with
a line item of id `itemId`, `it` being the first one, whose product resolves,
the call is rejected (by the schema validation of `save`, quantity 0 being
below `min: 1`, or by the stock check if the stock is negative); the stored
cart is as before, and the document in memory keeps all its lines in place,
`it` with quantity 0 if the call got as far as the assignment. -/
theorem updateQuantity_zero_keeps_item (catalog : String → Option Product) (itemId : String)
    (now : Nat) (w : World) (pre post : List Item) (it : Item) (product : Product)
    (hitems : w.doc.items = pre ++ it :: post) (hpre : ∀ x ∈ pre, x._id ≠ itemId)
    (hit : it._id = itemId) (hcat : catalog it.product = some product) :
    ((updateQuantity catalog itemId 0 now w).1 = .error .validationFailed ∨
        (updateQuantity catalog itemId 0 now w).1 = .error .insufficientStock) ∧
      (updateQuantity catalog itemId 0 now w).2.stored = w.stored ∧
      ((updateQuantity catalog itemId 0 now w).2.doc.items = pre ++ it :: post ∨
        (updateQuantity catalog itemId 0 now w).2.doc.items =
          pre ++ { it with quantity := 0 } :: post) ∧
      (∃ x ∈ (updateQuantity catalog itemId 0 now w).2.doc.items, x._id = itemId) := by
  have hp : ∀ x ∈ pre, (fun item : Item => item._id == itemId) x = false := by
    intro x hx
    simpa using hpre x hx
  have hi : (fun item : Item => item._id == itemId) it = true := by simpa using hit
  have hfind : w.doc.items.find? (fun item => item._id == itemId) = some it := by
    rw [hitems]; exact find?_first _ pre post it hp hi
  by_cases hstock : product.stock < 0
  · have hrun : updateQuantity catalog itemId 0 now w = (.error .insufficientStock, w) := by
      simp only [updateQuantity, hfind, hcat, hstock, if_true]
    rw [hrun]
    refine ⟨Or.inr rfl, rfl, Or.inl hitems, it, ?_, hit⟩
    show it ∈ w.doc.items
    rw [hitems]; simp
  · rw [updateQuantity_run catalog itemId 0 now w it product hfind hcat hstock]
    have hmod : modifyFirst (fun item => item._id == itemId)
        (fun item => { item with quantity := 0 }) w.doc.items =
        pre ++ { it with quantity := 0 } :: post := by
      rw [hitems, modifyFirst_first _ _ pre post it hp hi]
    have hinvalid : validate (recompute now { w.doc with
        items := modifyFirst (fun item => item._id == itemId)
          (fun item => { item with quantity := 0 }) w.doc.items }) = false := by
      rw [validate_recompute]
      simp only [validate, hmod]
      simp
    have hct : calculateTotals now { w with doc := { w.doc with
        items := modifyFirst (fun item => item._id == itemId)
          (fun item => { item with quantity := 0 }) w.doc.items } } =
        (.error .validationFailed, { w with doc := recompute now { w.doc with
          items := modifyFirst (fun item => item._id == itemId)
            (fun item => { item with quantity := 0 }) w.doc.items } }) := by
      simp only [calculateTotals, save, hinvalid]
      rfl
    rw [hct]
    refine ⟨Or.inl rfl, rfl, Or.inr ?_, { it with quantity := 0 }, ?_, hit⟩
    · show (recompute now _).items = _
      simp only [recompute, hmod]
    · show _ ∈ (recompute now _).items
      simp only [recompute, hmod]
      simp

/-- Witness for the amended C24: on the one-line cart the update of line
`"i1"` to 0 is rejected and the store is as before. -/
theorem updateQuantity_zero_keeps_item_witness :
    oneLineWorld.doc.items = [] ++ lineM :: [] ∧ lineM._id = "i1" ∧
      demoCatalog lineM.product = some { price := 10, stock := 5 } ∧
      (updateQuantity demoCatalog "i1" 0 2 oneLineWorld).2.stored = oneLineWorld.stored :=
  have hcat : demoCatalog lineM.product = some { price := 10, stock := 5 } := by
    simp [demoCatalog, lineM]
  ⟨rfl, rfl, hcat,
    (updateQuantity_zero_keeps_item demoCatalog "i1" 2 oneLineWorld [] [] lineM
      { price := 10, stock := 5 } rfl (by simp) rfl hcat).2.1⟩

/-- C25. The grand total is not clamped at zero: starting from a fresh cart,
with a product priced 10 and neither shipping nor tax, `addItem` of two units,
then `applyDiscount`, then `removeItem` of that line all succeed, and the cart
ends with no items, total 0, discount amount 2 and grand total -2. -/
theorem grandTotal_can_be_negative :
    (addItem demoCatalog "p" 2 none "i1" 1 freshWorld).1 =
        .ok (addItem demoCatalog "p" 2 none "i1" 1 freshWorld).2.doc ∧
      (applyDiscount (some "TEN") 2 (addItem demoCatalog "p" 2 none "i1" 1 freshWorld).2).1 =
        .ok (applyDiscount (some "TEN") 2
          (addItem demoCatalog "p" 2 none "i1" 1 freshWorld).2).2.doc ∧
      (removeItem "i1" 3 (applyDiscount (some "TEN") 2
          (addItem demoCatalog "p" 2 none "i1" 1 freshWorld).2).2).1 =
        .ok { emptyCart "u" with
              discount := { code := some "TEN", amount := some 2 }
              grandTotal := -2, lastUpdated := 3 } ∧
      (removeItem "i1" 3 (applyDiscount (some "TEN") 2
          (addItem demoCatalog "p" 2 none "i1" 1 freshWorld).2).2).2.doc.grandTotal < 0 ∧
      (removeItem "i1" 3 (applyDiscount (some "TEN") 2
          (addItem demoCatalog "p" 2 none "i1" 1 freshWorld).2).2).2.doc.shipping.cost = 0 ∧
      (removeItem "i1" 3 (applyDiscount (some "TEN") 2
          (addItem demoCatalog "p" 2 none "i1" 1 freshWorld).2).2).2.doc.tax = 0 := by
  have e1 : ¬ ((5 : ℚ) < 2) := by norm_num
  have e2 : (1 : ℚ) ≤ 2 := by norm_num
  have e3 : (10 : ℚ) * 2 = 20 := by norm_num
  have e4 : (20 : ℚ) * 10⁻¹ = 2 := by norm_num
  have e5 : (20 : ℚ) - 2 = 18 := by norm_num
  have e6 : (0 : ℚ) - 2 = -2 := by norm_num
  have e7 : (-2 : ℚ) < 0 := by norm_num
  refine ⟨?_, ?_, ?_, ?_, ?_, ?_⟩ <;>
    simp [addItem, applyDiscount, removeItem, demoCatalog, freshWorld, emptyCart,
      calculateTotals, save, validate, recompute, itemsTotal, addItemMatch, e1, e2, e3, e4, e5,
      e6, e7]

/-! ## Frame of the item operations, stock check, repeated discount -/

theorem addItem_frame (catalog : String → Option Product) (productId : String) (q : ℚ)
    (variant : Option Variant) (newId : String) (now : Nat) (w : World) :
    (addItem catalog productId q variant newId now w).2.doc.discount = w.doc.discount ∧
      (addItem catalog productId q variant newId now w).2.doc.shipping = w.doc.shipping ∧
      (addItem catalog productId q variant newId now w).2.doc.tax = w.doc.tax := by
  unfold addItem
  split
  · exact ⟨rfl, rfl, rfl⟩
  · split
    · exact ⟨rfl, rfl, rfl⟩
    · rw [calculateTotals_doc]
      exact ⟨rfl, rfl, rfl⟩

theorem updateQuantity_frame (catalog : String → Option Product) (itemId : String) (q : ℚ)
    (now : Nat) (w : World) :
    (updateQuantity catalog itemId q now w).2.doc.discount = w.doc.discount ∧
      (updateQuantity catalog itemId q now w).2.doc.shipping = w.doc.shipping ∧
      (updateQuantity catalog itemId q now w).2.doc.tax = w.doc.tax := by
  unfold updateQuantity
  split
  · exact ⟨rfl, rfl, rfl⟩
  · split
    · exact ⟨rfl, rfl, rfl⟩
    · split
      · exact ⟨rfl, rfl, rfl⟩
      · rw [calculateTotals_doc]
        exact ⟨rfl, rfl, rfl⟩

theorem removeItem_frame (itemId : String) (now : Nat) (w : World) :
    (removeItem itemId now w).2.doc.discount = w.doc.discount ∧
      (removeItem itemId now w).2.doc.shipping = w.doc.shipping ∧
      (removeItem itemId now w).2.doc.tax = w.doc.tax := by
  unfold removeItem
  rw [calculateTotals_doc]
  exact ⟨rfl, rfl, rfl⟩

theorem ok_eq_doc_addItem (catalog : String → Option Product) (productId : String) (q : ℚ)
    (variant : Option Variant) (newId : String) (now : Nat) (w : World) (c : Cart)
    (h : (addItem catalog productId q variant newId now w).1 = .ok c) :
    (addItem catalog productId q variant newId now w).2.doc = c := by
  unfold addItem at h ⊢
  split at h
  · simp at h
  · split at h
    · simp at h
    · rename_i hs
      simp only [hs, if_false]
      exact (calculateTotals_ok_consistent _ _ _ h).2.1

theorem ok_eq_doc_updateQuantity (catalog : String → Option Product) (itemId : String) (q : ℚ)
    (now : Nat) (w : World) (c : Cart)
    (h : (updateQuantity catalog itemId q now w).1 = .ok c) :
    (updateQuantity catalog itemId q now w).2.doc = c := by
  unfold updateQuantity at h ⊢
  split at h
  · simp at h
  · split at h
    · simp at h
    · split at h
      · simp at h
      · rename_i hs
        simp only [hs, if_false]
        exact (calculateTotals_ok_consistent _ _ _ h).2.1

theorem ok_eq_doc_removeItem (itemId : String) (now : Nat) (w : World) (c : Cart)
    (h : (removeItem itemId now w).1 = .ok c) : (removeItem itemId now w).2.doc = c :=
  (calculateTotals_ok_consistent _ _ _ h).2.1

/-- C28. Frame property: the cart returned by a successful `addItem`,
`updateQuantity` or `removeItem` has the discount (code and amount), the
shipping (method and cost) and the tax of the cart it was called on.  Hence a
discount amount stored by `applyDiscount` is not re-derived when the subtotal
changes: after two units at price 10, a discount (amount 2) and two more units,
the subtotal is 40 and the amount is still 2, not 4. -/
theorem item_operations_keep_discount :
    (∀ (catalog : String → Option Product) (productId : String) (q : ℚ)
        (variant : Option Variant) (newId : String) (now : Nat) (w : World) (c : Cart),
        (addItem catalog productId q variant newId now w).1 = .ok c →
        c.discount = w.doc.discount ∧ c.shipping = w.doc.shipping ∧ c.tax = w.doc.tax) ∧
      (∀ (catalog : String → Option Product) (itemId : String) (q : ℚ) (now : Nat)
        (w : World) (c : Cart),
        (updateQuantity catalog itemId q now w).1 = .ok c →
        c.discount = w.doc.discount ∧ c.shipping = w.doc.shipping ∧ c.tax = w.doc.tax) ∧
      (∀ (itemId : String) (now : Nat) (w : World) (c : Cart),
        (removeItem itemId now w).1 = .ok c →
        c.discount = w.doc.discount ∧ c.shipping = w.doc.shipping ∧ c.tax = w.doc.tax) ∧
      ((addItem demoCatalog "p" 2 none "i2" 3 (applyDiscount (some "TEN") 2
          (addItem demoCatalog "p" 2 none "i1" 1 freshWorld).2).2).1 =
          .ok (addItem demoCatalog "p" 2 none "i2" 3 (applyDiscount (some "TEN") 2
            (addItem demoCatalog "p" 2 none "i1" 1 freshWorld).2).2).2.doc ∧
        (addItem demoCatalog "p" 2 none "i2" 3 (applyDiscount (some "TEN") 2
          (addItem demoCatalog "p" 2 none "i1" 1 freshWorld).2).2).2.doc.total = 40 ∧
        (addItem demoCatalog "p" 2 none "i2" 3 (applyDiscount (some "TEN") 2
          (addItem demoCatalog "p" 2 none "i1" 1 freshWorld).2).2).2.doc.discount.amount =
            some 2 ∧
        (2 : ℚ) ≠ 40 / 10) := by
  refine ⟨?_, ?_, ?_, ?_⟩
  · intro catalog productId q variant newId now w c h
    rw [← ok_eq_doc_addItem catalog productId q variant newId now w c h]
    exact addItem_frame catalog productId q variant newId now w
  · intro catalog itemId q now w c h
    rw [← ok_eq_doc_updateQuantity catalog itemId q now w c h]
    exact updateQuantity_frame catalog itemId q now w
  · intro itemId now w c h
    rw [← ok_eq_doc_removeItem itemId now w c h]
    exact removeItem_frame itemId now w
  · have e1 : ¬ ((5 : ℚ) < 2) := by norm_num
    have e2 : (1 : ℚ) ≤ 2 := by norm_num
    have e3 : (10 : ℚ) * 2 = 20 := by norm_num
    have e4 : (20 : ℚ) * 10⁻¹ = 2 := by norm_num
    have e5 : (2 : ℚ) + 2 = 4 := by norm_num
    have e6 : (1 : ℚ) ≤ 4 := by norm_num
    have e7 : (10 : ℚ) * 4 = 40 := by norm_num
    refine ⟨?_, ?_, ?_, by norm_num⟩ <;>
      simp [addItem, applyDiscount, demoCatalog, freshWorld, emptyCart, calculateTotals, save,
        validate, recompute, itemsTotal, addItemMatch, modifyFirst, e1, e2, e3, e4, e5, e6, e7]

/-- Witness for C28: removing an absent line from the one-line cart succeeds
and returns a cart with the discount, shipping and tax of that cart. -/
theorem item_operations_keep_discount_witness :
    (removeItem "zz" 9 oneLineWorld).1 = .ok { oneLineCart with lastUpdated := 9 } ∧
      ({ oneLineCart with lastUpdated := 9 } : Cart).discount = oneLineWorld.doc.discount ∧
      ({ oneLineCart with lastUpdated := 9 } : Cart).shipping = oneLineWorld.doc.shipping ∧
      ({ oneLineCart with lastUpdated := 9 } : Cart).tax = oneLineWorld.doc.tax :=
  have e1 : (1 : ℚ) ≤ 2 := by norm_num
  have e2 : (10 : ℚ) * 2 = 20 := by norm_num
  have h : (removeItem "zz" 9 oneLineWorld).1 = .ok { oneLineCart with lastUpdated := 9 } := by
    simp [removeItem, oneLineWorld, oneLineCart, lineM, emptyCart, calculateTotals, save,
      validate, recompute, itemsTotal, e1, e2]
  ⟨h, item_operations_keep_discount.2.2.1 "zz" 9 oneLineWorld _ h⟩

/-- C29. The stock check of `addItem` looks at the incoming quantity only: for
the product with stock 5, two calls of `addItem` with quantity 3 each (3 is at
most 5) both succeed, and the resulting single line item has quantity 6, above
the stock. -/
theorem addItem_exceeds_stock :
    demoCatalog "p" = some { price := 10, stock := 5 } ∧ (3 : ℚ) ≤ 5 ∧
      (addItem demoCatalog "p" 3 none "i1" 1 freshWorld).1 =
        .ok (addItem demoCatalog "p" 3 none "i1" 1 freshWorld).2.doc ∧
      (addItem demoCatalog "p" 3 none "i2" 2
          (addItem demoCatalog "p" 3 none "i1" 1 freshWorld).2).1 =
        .ok (addItem demoCatalog "p" 3 none "i2" 2
          (addItem demoCatalog "p" 3 none "i1" 1 freshWorld).2).2.doc ∧
      (addItem demoCatalog "p" 3 none "i2" 2
          (addItem demoCatalog "p" 3 none "i1" 1 freshWorld).2).2.doc.items =
        [{ _id := "i1", product := "p", variant := none, quantity := 6, price := 10 }] ∧
      (5 : ℚ) < 6 := by
  have e1 : ¬ ((5 : ℚ) < 3) := by norm_num
  have e2 : (1 : ℚ) ≤ 3 := by norm_num
  have e3 : (3 : ℚ) + 3 = 6 := by norm_num
  have e4 : (1 : ℚ) ≤ 6 := by norm_num
  refine ⟨by simp [demoCatalog], by norm_num, ?_, ?_, ?_, by norm_num⟩ <;>
    simp [addItem, demoCatalog, freshWorld, emptyCart, calculateTotals, save, validate,
      recompute, addItemMatch, modifyFirst, e1, e2, e3, e4]

/-- C30. `applyDiscount` does not compound: on a cart whose `total` agrees with
its items, a second `applyDiscount` (with any code) right after a first one
leaves the discount amount, the total and the grand total as the first call
left them, and it resolves or is rejected as the first call was. -/
theorem applyDiscount_twice (code1 code2 : Option String) (now1 now2 : Nat) (w : World)
    (htotal : w.doc.total = (w.doc.items.map (fun item => item.price * item.quantity)).sum) :
    (applyDiscount code2 now2 (applyDiscount code1 now1 w).2).2.doc.discount.amount =
        (applyDiscount code1 now1 w).2.doc.discount.amount ∧
      (applyDiscount code2 now2 (applyDiscount code1 now1 w).2).2.doc.total =
        (applyDiscount code1 now1 w).2.doc.total ∧
      (applyDiscount code2 now2 (applyDiscount code1 now1 w).2).2.doc.grandTotal =
        (applyDiscount code1 now1 w).2.doc.grandTotal ∧
      ((applyDiscount code2 now2 (applyDiscount code1 now1 w).2).1 =
          .ok (applyDiscount code2 now2 (applyDiscount code1 now1 w).2).2.doc ↔
        (applyDiscount code1 now1 w).1 = .ok (applyDiscount code1 now1 w).2.doc) := by
  have hsum : itemsTotal w.doc.items = w.doc.total := by
    rw [itemsTotal_eq_subtotalOf]; exact htotal.symm
  refine ⟨?_, ?_, ?_, ?_⟩
  · simp only [applyDiscount_doc]
    simp [recompute, hsum]
  · simp only [applyDiscount_doc]
    simp [recompute]
  · simp only [applyDiscount_doc]
    simp [recompute, hsum]
  · simp only [applyDiscount_result, applyDiscount_doc, validate_recompute]
    have hv : validate { w.doc with
        discount := { code := code1, amount := some (w.doc.total * (1 / 10)) } } =
        validate w.doc := rfl
    rw [hv]
    by_cases h : validate w.doc = true <;> simp [h]

/-- Witness for C30: the one-line cart has total 20, the sum over its items;
a second discount leaves the amount of the first. -/
theorem applyDiscount_twice_witness :
    oneLineWorld.doc.total =
        (oneLineWorld.doc.items.map (fun item => item.price * item.quantity)).sum ∧
      (applyDiscount (some "B") 5 (applyDiscount (some "A") 4 oneLineWorld).2).2.doc.discount.amount =
        (applyDiscount (some "A") 4 oneLineWorld).2.doc.discount.amount :=
  have htotal : oneLineWorld.doc.total =
      (oneLineWorld.doc.items.map (fun item => item.price * item.quantity)).sum := by
    simp [oneLineWorld, oneLineCart, lineM]; norm_num
  ⟨htotal, (applyDiscount_twice (some "A") (some "B") 4 5 oneLineWorld htotal).1⟩

end CartModel

namespace CategoryTree

/-! ## Deeper levels and orphans -/

theorem rootNodes_mem (categories : List Category) (node : CategoryNode)
    (h : node ∈ rootNodes categories) :
    node.category ∈ categories ∧ node.category.parent = none ∧ node.subcategories = [] := by
  rw [rootNodes_eq] at h
  obtain ⟨root, hroot, rfl⟩ := List.mem_map.1 h
  have hr := List.mem_filter.1 hroot
  exact ⟨hr.1, by simpa using hr.2, rfl⟩

theorem pushChild_mem (parentId : String) (category : Category) (tree : List CategoryNode)
    (node : CategoryNode) (h : node ∈ pushChild parentId category tree) :
    ∃ old ∈ tree, node.category = old.category ∧
      ∀ x ∈ node.subcategories,
        x ∈ old.subcategories ∨ (x = category ∧ old.category._id = parentId) := by
  induction tree with
  | nil => simp [pushChild] at h
  | cons first rest ih =>
    by_cases hid : first.category._id = parentId
    · have hh : node = { first with subcategories := first.subcategories ++ [category] } ∨
          node ∈ rest := by simpa [pushChild, hid] using h
      rcases hh with hnode | hrest
      · refine ⟨first, by simp, by rw [hnode], ?_⟩
        intro x hx
        rw [hnode] at hx
        rcases List.mem_append.1 hx with hx1 | hx2
        · exact Or.inl hx1
        · exact Or.inr ⟨by simpa using hx2, hid⟩
      · exact ⟨node, by simp [hrest], rfl, fun x hx => Or.inl hx⟩
    · have hh : node = first ∨ node ∈ pushChild parentId category rest := by
        simpa [pushChild, hid] using h
      rcases hh with hnode | hrest
      · exact ⟨first, by simp, by rw [hnode], fun x hx => Or.inl (by rw [hnode] at hx; exact hx)⟩
      · obtain ⟨old, hold, hcat, hsub⟩ := ih hrest
        exact ⟨old, by simp [hold], hcat, hsub⟩

theorem attachChildren_mem (categories : List Category) (tree : List CategoryNode)
    (node : CategoryNode) (h : node ∈ attachChildren categories tree) :
    ∃ old ∈ tree, node.category = old.category ∧
      ∀ x ∈ node.subcategories,
        x ∈ old.subcategories ∨
          (x ∈ categories ∧ ∃ parent, x.parent = some parent ∧ parent._id = old.category._id) := by
  induction categories generalizing tree with
  | nil =>
    simp only [attachChildren, List.foldl_nil] at h
    exact ⟨node, h, rfl, fun x hx => Or.inl hx⟩
  | cons c cs ih =>
    have hstep : attachChildren (c :: cs) tree =
        attachChildren cs
          (match c.parent with
            | none => tree
            | some parent => pushChild parent._id c tree) := by
      simp only [attachChildren, List.foldl_cons]
    rw [hstep] at h
    obtain ⟨mid, hmid, hcat, hsub⟩ := ih _ h
    cases hp : c.parent with
    | none =>
      rw [hp] at hmid
      refine ⟨mid, hmid, hcat, fun x hx => ?_⟩
      rcases hsub x hx with h1 | ⟨h2, h3⟩
      · exact Or.inl h1
      · exact Or.inr ⟨by simp [h2], h3⟩
    | some parent =>
      rw [hp] at hmid
      obtain ⟨old, hold, hcat2, hsub2⟩ := pushChild_mem parent._id c tree mid hmid
      refine ⟨old, hold, hcat.trans hcat2, fun x hx => ?_⟩
      rcases hsub x hx with h1 | ⟨h2, q, hq1, hq2⟩
      · rcases hsub2 x h1 with h3 | ⟨h4, h5⟩
        · exact Or.inl h3
        · exact Or.inr ⟨by simp [h4], parent, by rw [h4]; exact hp, h5.symm⟩
      · exact Or.inr ⟨by simp [h2], q, hq1, by rw [hq2, hcat2]⟩

theorem pushChild_categories (parentId : String) (category : Category)
    (tree : List CategoryNode) :
    (pushChild parentId category tree).map (fun node => node.category) =
      tree.map (fun node => node.category) := by
  induction tree with
  | nil => rfl
  | cons first rest ih =>
    by_cases hid : first.category._id = parentId
    · simp [pushChild, hid]
    · simp [pushChild, hid, ih]

theorem attachChildren_categories (categories : List Category) (tree : List CategoryNode) :
    (attachChildren categories tree).map (fun node => node.category) =
      tree.map (fun node => node.category) := by
  induction categories generalizing tree with
  | nil => rfl
  | cons c cs ih =>
    have hstep : attachChildren (c :: cs) tree =
        attachChildren cs
          (match c.parent with
            | none => tree
            | some parent => pushChild parent._id c tree) := by
      simp only [attachChildren, List.foldl_cons]
    rw [hstep, ih]
    cases hp : c.parent with
    | none => rfl
    | some parent => exact pushChild_categories parent._id c tree

theorem categoryTree_mem (categories : List Category) (node : CategoryNode)
    (h : node ∈ categoryTree categories) :
    node.category ∈ categories ∧ node.category.parent = none ∧
      ∀ x ∈ node.subcategories,
        x ∈ categories ∧ ∃ parent, x.parent = some parent ∧ parent._id = node.category._id := by
  obtain ⟨old, hold, hcat, hsub⟩ := attachChildren_mem categories (rootNodes categories) node h
  obtain ⟨hmem, hroot, hempty⟩ := rootNodes_mem categories old hold
  refine ⟨by rw [hcat]; exact hmem, by rw [hcat]; exact hroot, fun x hx => ?_⟩
  rcases hsub x hx with h1 | ⟨h2, parent, hp, hid⟩
  · rw [hempty] at h1
    simp at h1
  · exact ⟨h2, parent, hp, by rw [hid, hcat]⟩

/-- C21 fails on the code: A has no parent, C is a child of A and G a child of
C.  The tree is A with [C] and nothing else: G, a category with a parent, is
neither at the top level nor in any list of subcategories, so it is not nested
under its parent C. -/
theorem categoryTree_drops_grandchild :
    categoryTree [sampleCategory "1" "A" none, sampleCategory "2" "C" (some "1"),
        sampleCategory "3" "G" (some "2")] =
      [{ category := sampleCategory "1" "A" none
         subcategories := [sampleCategory "2" "C" (some "1")] }] ∧
      (∀ node ∈ categoryTree [sampleCategory "1" "A" none, sampleCategory "2" "C" (some "1"),
          sampleCategory "3" "G" (some "2")],
        node.category ≠ sampleCategory "3" "G" (some "2") ∧
          sampleCategory "3" "G" (some "2") ∉ node.subcategories) := by
  have htree : categoryTree [sampleCategory "1" "A" none, sampleCategory "2" "C" (some "1"),
        sampleCategory "3" "G" (some "2")] =
      [{ category := sampleCategory "1" "A" none
         subcategories := [sampleCategory "2" "C" (some "1")] }] := by
    simp [categoryTree, rootNodes, attachChildren, pushChild, sampleCategory]
  rw [htree]
  refine ⟨rfl, ?_⟩
  intro node hnode
  simp only [List.mem_singleton] at hnode
  rw [hnode]
  simp [sampleCategory]

/-- The builder on any list, populated or not: the top level of the tree is
exactly the parentless categories of the list, in order; every entry of a list
of subcategories is a category of the list whose parent id is the id of the
root it hangs under; and a category carrying a parent whose id is the id of no
parentless category is neither at the top level nor in any list of
subcategories. -/
theorem categoryTree_omits_orphans (categories : List Category) :
    (categoryTree categories).map (fun node => node.category) =
        categories.filter (fun category => category.parent = none) ∧
      (∀ node ∈ categoryTree categories, ∀ x ∈ node.subcategories,
        x ∈ categories ∧ node.category.parent = none ∧
          ∃ parent, x.parent = some parent ∧ parent._id = node.category._id) ∧
      (∀ (c : Category) (parent : ParentRef), c.parent = some parent →
        (∀ root ∈ categories, root.parent = none → root._id ≠ parent._id) →
        ∀ node ∈ categoryTree categories, node.category ≠ c ∧ c ∉ node.subcategories) := by
  refine ⟨?_, ?_, ?_⟩
  · unfold categoryTree
    rw [attachChildren_categories, rootNodes_eq, List.map_map]
    simp [Function.comp_def]
  · intro node hnode x hx
    obtain ⟨_, hroot, hsub⟩ := categoryTree_mem categories node hnode
    exact ⟨(hsub x hx).1, hroot, (hsub x hx).2⟩
  · intro c parent hc horphan node hnode
    obtain ⟨hmem, hroot, hsub⟩ := categoryTree_mem categories node hnode
    constructor
    · intro heq
      rw [heq, hc] at hroot
      cases hroot
    · intro hin
      obtain ⟨_, q, hq, hid⟩ := hsub c hin
      rw [hc] at hq
      cases hq
      exact horphan node.category hmem hroot hid.symm

/-! ## Orphans through `populate` -/

theorem populateParent_dangling (collection : List RawCategory) (raw : RawCategory)
    (parentId : String) (hparent : raw.parent = some parentId)
    (hnone : ∀ c ∈ collection, c._id ≠ parentId) :
    (populateParent collection raw).parent = none := by
  have hfind : collection.find? (fun c => c._id == parentId) = none := by
    rw [List.find?_eq_none]
    intro c hc
    simpa using hnone c hc
  simp [populateParent, hparent, hfind]

theorem populateParent_resolved (collection : List RawCategory) (raw : RawCategory)
    (parentId : String) (hparent : raw.parent = some parentId)
    (hsome : ∃ c ∈ collection, c._id = parentId) :
    ∃ parent, (populateParent collection raw).parent = some parent ∧ parent._id = parentId := by
  cases hfind : collection.find? (fun c => c._id == parentId) with
  | none =>
    obtain ⟨c, hc, hid⟩ := hsome
    rw [List.find?_eq_none] at hfind
    have := hfind c hc
    simp [hid] at this
  | some p =>
    have hp : p._id = parentId := by simpa using List.find?_some hfind
    exact ⟨{ _id := p._id, name := p.name, slug := p.slug },
      by simp [populateParent, hparent, hfind], hp⟩

theorem getCategories_top_level (collection : List RawCategory) :
    (getCategories collection).map (fun node => node.category) =
      (populate collection).filter (fun category => category.parent = none) :=
  (categoryTree_omits_orphans (populate collection)).1

/-- C22, as stated, fails: in the collection A (id 1), B (id 2), C (parent 1),
D (parent 2), E (parent 3) no category has id 3, so the parent id of E is the id
of no root; `populate` hands E to the builder with parent `null`, and the tree
is A with [C], B with [D] and E, at the top level, with no subcategories. -/
theorem getCategories_dangling_counterexample :
    (rawCategory "5e" "E" (some "3")) ∈ danglingCollection ∧
      (∀ c ∈ danglingCollection, c._id ≠ "3") ∧
      (populateParent danglingCollection (rawCategory "5e" "E" (some "3"))).parent = none ∧
      getCategories danglingCollection =
        [{ category := populateParent danglingCollection (rawCategory "1" "A" none)
           subcategories :=
             [populateParent danglingCollection (rawCategory "3c" "C" (some "1"))] },
         { category := populateParent danglingCollection (rawCategory "2" "B" none)
           subcategories :=
             [populateParent danglingCollection (rawCategory "4d" "D" (some "2"))] },
         { category := populateParent danglingCollection (rawCategory "5e" "E" (some "3"))
           subcategories := [] }] := by
  refine ⟨?_, ?_, ?_, ?_⟩
  · simp [danglingCollection]
  · simp [danglingCollection, rawCategory]
  · simp [populateParent, danglingCollection, rawCategory]
  · simp [getCategories, populate, populateParent, danglingCollection, rawCategory,
      categoryTree, rootNodes, attachChildren, pushChild]

/-- C22, amended: the tree is built for every collection, and its top level is
exactly the categories whose populated parent is `null`, in order.  A category
whose parent id is the id of no category of the collection (a dangling
reference) is one of these: `populate` gives it the parent `null` and it
appears at the top level.  A category whose parent id is the id of categories
that are all children themselves (their populated parent is not `null`)
appears neither at the top level nor in any list of subcategories. -/
theorem getCategories_orphans (collection : List RawCategory) :
    (getCategories collection).map (fun node => node.category) =
        (populate collection).filter (fun category => category.parent = none) ∧
      (∀ raw ∈ collection, ∀ parentId, raw.parent = some parentId →
        (∀ c ∈ collection, c._id ≠ parentId) →
        (populateParent collection raw).parent = none ∧
          ∃ node ∈ getCategories collection, node.category = populateParent collection raw) ∧
      (∀ raw ∈ collection, ∀ parentId, raw.parent = some parentId →
        (∃ c ∈ collection, c._id = parentId) →
        (∀ c ∈ collection, c._id = parentId → (populateParent collection c).parent ≠ none) →
        ∀ node ∈ getCategories collection,
          node.category ≠ populateParent collection raw ∧
            populateParent collection raw ∉ node.subcategories) := by
  refine ⟨getCategories_top_level collection, ?_, ?_⟩
  · intro raw hraw parentId hparent hnone
    have hnull := populateParent_dangling collection raw parentId hparent hnone
    refine ⟨hnull, ?_⟩
    have hmem : populateParent collection raw ∈
        (getCategories collection).map (fun node => node.category) := by
      rw [getCategories_top_level]
      apply List.mem_filter.2
      exact ⟨List.mem_map.2 ⟨raw, hraw, rfl⟩, by simpa using hnull⟩
    obtain ⟨node, hnode, hcat⟩ := List.mem_map.1 hmem
    exact ⟨node, hnode, hcat⟩
  · intro raw _ parentId hparent hsome hchildren node hnode
    obtain ⟨parent, hp, hid⟩ := populateParent_resolved collection raw parentId hparent hsome
    refine (categoryTree_omits_orphans (populate collection)).2.2
      (populateParent collection raw) parent hp ?_ node hnode
    intro root hroot hrootnone hrootid
    obtain ⟨r, hr, hreq⟩ := List.mem_map.1 hroot
    have hrid : r._id = parentId := by
      have h1 : root._id = r._id := by rw [← hreq]; rfl
      rw [← h1, hrootid, hid]
    apply hchildren r hr hrid
    rw [hreq]
    exact hrootnone

/-- Witness for the amended C22: in the collection A, C (child of A), G (child
of C) the parent id of G is the id of C alone, and C is a child; G is in no
node of the tree. -/
theorem getCategories_orphans_witness :
    rawCategory "3" "G" (some "2") ∈ threeLevelCollection ∧
      (∃ c ∈ threeLevelCollection, c._id = "2") ∧
      (∀ c ∈ threeLevelCollection, c._id = "2" →
        (populateParent threeLevelCollection c).parent ≠ none) ∧
      ∀ node ∈ getCategories threeLevelCollection,
        node.category ≠ populateParent threeLevelCollection (rawCategory "3" "G" (some "2")) ∧
          populateParent threeLevelCollection (rawCategory "3" "G" (some "2")) ∉
            node.subcategories :=
  have hmem : rawCategory "3" "G" (some "2") ∈ threeLevelCollection := by
    simp [threeLevelCollection]
  have hsome : ∃ c ∈ threeLevelCollection, c._id = "2" :=
    ⟨rawCategory "2" "C" (some "1"), by simp [threeLevelCollection], rfl⟩
  have hchildren : ∀ c ∈ threeLevelCollection, c._id = "2" →
      (populateParent threeLevelCollection c).parent ≠ none := by
    simp [threeLevelCollection, rawCategory, populateParent]
  ⟨hmem, hsome, hchildren,
    (getCategories_orphans threeLevelCollection).2.2 (rawCategory "3" "G" (some "2")) hmem "2"
      rfl hsome hchildren⟩

/-! ## Slugs -/

theorem slug_cons (u : Nat) (rest : List Nat) :
    slug (u :: rest) =
      (toLowerCaseUnit u).map (fun v => if isAlnum v then v else 45) ++ slug rest := by
  simp [slug, toLowerCase]

theorem toLowerCaseUnit_not_capital (u v : Nat) (h : v ∈ toLowerCaseUnit u) :
    ¬ (65 ≤ v ∧ v ≤ 90) := by
  unfold toLowerCaseUnit at h
  split at h
  · simp only [List.mem_singleton] at h
    omega
  · split at h
    · simp only [List.mem_singleton] at h
      omega
    · split at h
      · simp only [List.mem_cons, List.mem_singleton, List.not_mem_nil, or_false] at h
        omega
      · simp only [List.mem_singleton] at h
        omega

theorem toLowerCaseUnit_plain (u : Nat) (h1 : u ≠ 0x212A) (h2 : u ≠ 0x130) :
    toLowerCaseUnit u = [if 65 ≤ u ∧ u ≤ 90 then u + 32 else u] := by
  unfold toLowerCaseUnit
  split
  · rfl
  · simp [h1, h2]

/-- C23, as stated, fails: KELVIN SIGN (U+212A) is not an ASCII letter or
digit, yet the slug of the one-character name made of it is the letter k, not a
hyphen; and the single character U+0130 yields two characters, the letter i
and a hyphen. -/
theorem slug_counterexample :
    isAlnum 0x212A = false ∧ slug [0x212A] = [107] ∧ slug [0x212A] ≠ [45] ∧
      isAlnum 0x130 = false ∧ slug [0x130] = [105, 45] := by
  decide

/-- C23, amended: the slug consists only of lowercase ASCII letters, ASCII
digits and hyphens.  It is the name lowercased by `toLowerCase` with every
UTF-16 code unit that is not an ASCII letter or digit replaced by a hyphen; for
a name without U+212A and U+0130 this means that each ASCII letter or digit of
the name is kept in place (letters lowercased) and every other code unit is
replaced by a hyphen, while U+212A becomes the letter k and U+0130 the letter i
followed by a hyphen. -/
theorem slug_shape :
    (∀ (name : List Nat) (u : Nat), u ∈ slug name →
        (97 ≤ u ∧ u ≤ 122) ∨ (48 ≤ u ∧ u ≤ 57) ∨ u = 45) ∧
      (∀ name : List Nat, 0x212A ∉ name → 0x130 ∉ name →
        slug name =
          name.map (fun u =>
            if 65 ≤ u ∧ u ≤ 90 then u + 32
            else if (97 ≤ u ∧ u ≤ 122) ∨ (48 ≤ u ∧ u ≤ 57) then u
            else 45)) ∧
      (∀ before after : List Nat,
        slug (before ++ 0x212A :: after) = slug before ++ 107 :: slug after ∧
          slug (before ++ 0x130 :: after) = slug before ++ 105 :: 45 :: slug after) ∧
      slug (units "Hello World 2") = units "hello-world-2" := by
  refine ⟨?_, ?_, ?_, ?_⟩
  · intro name u hu
    simp only [slug, toLowerCase, List.mem_map, List.mem_flatMap] at hu
    obtain ⟨v, ⟨w, _, hv⟩, hvu⟩ := hu
    have hcap := toLowerCaseUnit_not_capital w v hv
    by_cases ha : isAlnum v = true
    · rw [if_pos ha] at hvu
      subst hvu
      simp only [isAlnum, Bool.or_eq_true, Bool.and_eq_true, decide_eq_true_eq] at ha
      rcases ha with (h | h) | h
      · exact Or.inl h
      · exact absurd h hcap
      · exact Or.inr (Or.inl h)
    · rw [if_neg ha] at hvu
      exact Or.inr (Or.inr hvu.symm)
  · intro name
    induction name with
    | nil => intro _ _; rfl
    | cons u rest ih =>
      intro h1 h2
      have hu1 : u ≠ 0x212A := fun h => h1 (by simp [h])
      have hu2 : u ≠ 0x130 := fun h => h2 (by simp [h])
      have hr1 : 0x212A ∉ rest := fun h => h1 (by simp [h])
      have hr2 : 0x130 ∉ rest := fun h => h2 (by simp [h])
      rw [slug_cons, toLowerCaseUnit_plain u hu1 hu2, ih hr1 hr2]
      simp only [List.map_cons, List.map_nil, List.singleton_append, List.cons.injEq, and_true]
      by_cases hcap : 65 ≤ u ∧ u ≤ 90
      · have hal : isAlnum (u + 32) = true := by
          simp only [isAlnum, Bool.or_eq_true, Bool.and_eq_true, decide_eq_true_eq]
          omega
        simp [hcap, hal]
      · by_cases hlow : (97 ≤ u ∧ u ≤ 122) ∨ (48 ≤ u ∧ u ≤ 57)
        · have hal : isAlnum u = true := by
            simp only [isAlnum, Bool.or_eq_true, Bool.and_eq_true, decide_eq_true_eq]
            omega
          simp [hcap, hlow, hal]
        · have hal : isAlnum u = false := by
            rw [Bool.eq_false_iff]
            intro h
            simp only [isAlnum, Bool.or_eq_true, Bool.and_eq_true, decide_eq_true_eq] at h
            omega
          simp [hcap, hlow, hal]
  · intro before after
    simp [slug, toLowerCase, toLowerCaseUnit, isAlnum]
  · decide

/-- Witness for the amended C23: every code unit of the slug of "Été 2" is a
small letter, a digit or a hyphen; here for the unit 116, the letter t. -/
theorem slug_shape_witness :
    116 ∈ slug (units "Été 2") ∧
      ((97 ≤ 116 ∧ 116 ≤ 122) ∨ (48 ≤ 116 ∧ 116 ≤ 57) ∨ 116 = 45) :=
  have h : 116 ∈ slug (units "Été 2") := by decide
  ⟨h, slug_shape.1 (units "Été 2") 116 h⟩

end CategoryTree

namespace CartModel

/-! ## Request validation at the handlers -/

/-- C26 fails on the code: the quantity 3/2 fails `isInt({ min: 1 })`.  Sent to
`addToCart` it is answered 400 and the store is as before; sent to
`updateQuantity` for line `"i1"` of the stored one-line cart it is answered 200
and the stored line gets quantity 3/2, total and grand total 15. -/
theorem updateQuantityHandler_skips_validation :
    quantityValid (3 / 2) = false ∧
      addToCartHandler demoCatalog "u" "p" (3 / 2) none "i2" 2 [oneLineCart] =
        ({ status := 400, cart := none }, [oneLineCart]) ∧
      (updateQuantityHandler demoCatalog "u" "i1" (3 / 2) 2 [oneLineCart]).1.status = 200 ∧
      (updateQuantityHandler demoCatalog "u" "i1" (3 / 2) 2 [oneLineCart]).2 =
        [{ oneLineCart with
            items := [{ lineM with quantity := 3 / 2 }], total := 15, grandTotal := 15,
            lastUpdated := 2 }] := by
  have hden : (3 / 2 : ℚ).den = 2 := by norm_num
  have hq : quantityValid (3 / 2) = false := by
    simp [quantityValid, Rat.isInt, hden]
  have e1 : ¬ ((5 : ℚ) < 3 / 2) := by norm_num
  have e2 : (1 : ℚ) ≤ 3 / 2 := by norm_num
  have e3 : (10 : ℚ) * (3 / 2) = 15 := by norm_num
  have hrun : updateQuantity demoCatalog "i1" (3 / 2) 2
      { doc := oneLineCart, stored := some oneLineCart } =
      (.ok { oneLineCart with
              items := [{ lineM with quantity := 3 / 2 }], total := 15, grandTotal := 15,
              lastUpdated := 2 },
        { doc := { oneLineCart with
              items := [{ lineM with quantity := 3 / 2 }], total := 15, grandTotal := 15,
              lastUpdated := 2 },
          stored := some { oneLineCart with
              items := [{ lineM with quantity := 3 / 2 }], total := 15, grandTotal := 15,
              lastUpdated := 2 } }) := by
    simp [updateQuantity, demoCatalog, oneLineCart, lineM, emptyCart, calculateTotals, save,
      validate, recompute, itemsTotal, modifyFirst, e1, e2, e3]
  have hfind : findOne "u" [oneLineCart] = some oneLineCart := by
    simp [findOne, oneLineCart, emptyCart]
  refine ⟨hq, ?_, ?_, ?_⟩
  · simp [addToCartHandler, hq]
  · simp only [updateQuantityHandler, hfind, hrun]
  · simp only [updateQuantityHandler, hfind, hrun]
    simp only [writeBack, hfind]
    simp [replaceCart, oneLineCart, emptyCart]

/-- C27 fails on the code: the cost -5 fails `isFloat({ min: 0 })`; sent to
`updateShipping` for the stored one-line cart it is answered 200, and the
stored cart gets shipping cost -5 and grand total 15 instead of 20. -/
theorem updateShippingHandler_skips_validation :
    shippingValid "post" (-5) = false ∧
      (updateShippingHandler "u" "post" (-5) 2 [oneLineCart]).1.status = 200 ∧
      (updateShippingHandler "u" "post" (-5) 2 [oneLineCart]).2 =
        [{ oneLineCart with
            shipping := { method := some "post", cost := -5 }, grandTotal := 15,
            lastUpdated := 2 }] ∧
      oneLineCart.grandTotal = 20 ∧ oneLineCart.shipping.cost = 0 := by
  have hv : shippingValid "post" (-5) = false := by
    simp [shippingValid]
  have e1 : (1 : ℚ) ≤ 2 := by norm_num
  have e2 : (10 : ℚ) * 2 = 20 := by norm_num
  have e3 : (20 : ℚ) + -5 = 15 := by norm_num
  have hrun : updateShipping (some "post") (-5) 2
      { doc := oneLineCart, stored := some oneLineCart } =
      (.ok { oneLineCart with
              shipping := { method := some "post", cost := -5 }, grandTotal := 15,
              lastUpdated := 2 },
        { doc := { oneLineCart with
              shipping := { method := some "post", cost := -5 }, grandTotal := 15,
              lastUpdated := 2 },
          stored := some { oneLineCart with
              shipping := { method := some "post", cost := -5 }, grandTotal := 15,
              lastUpdated := 2 } }) := by
    simp [updateShipping, oneLineCart, lineM, emptyCart, calculateTotals, save, validate,
      recompute, itemsTotal, e1, e2, e3]
  have hfind : findOne "u" [oneLineCart] = some oneLineCart := by
    simp [findOne, oneLineCart, emptyCart]
  refine ⟨hv, ?_, ?_, ?_, ?_⟩
  · simp only [updateShippingHandler, hfind, hrun]
  · simp only [updateShippingHandler, hfind, hrun]
    simp only [writeBack, hfind]
    simp [replaceCart, oneLineCart, emptyCart]
  · simp [oneLineCart]
  · simp [oneLineCart, emptyCart]

end CartModel
